import Mathlib

/-!
Verification development for the DeepDAG orchestrator core
(HDRP/orchestrator/internal/{dag,retry,storage}).

The Go sources are shallowly embedded: pure functions become Lean
functions, in-place mutation becomes explicit state passing, Go maps
built by iteration become association-list folds (later writes win),
Go `error` returns become `Except`/`Option`, and `float64` relevance
scores and failure rates become `ℚ` (the code only ever compares them,
and never produces NaN on the modelled paths).  Time (`time.Time`,
`time.Duration`) is modelled as abstract `Nat` ticks passed explicitly.
-/

namespace DeepDAG

/-! ## Status and the transition relation (internal/dag/graph.go, transitions.go) -/

/-- Execution status of a graph or node (graph.go `Status` constants). -/
inductive Status
  | created
  | pending
  | running
  | blocked
  | succeeded
  | failed
  | retrying
  | cancelled
deriving DecidableEq, Repr, Fintype

/-- Embedding of `isValidTransition` (transitions.go:44-73): the permitted
state machine edges.  Note the Go code first returns `true` whenever
`current == target`. -/
def isValidTransition (current target : Status) : Bool :=
  if current = target then true
  else
    match current with
    | .created => target = .pending || target = .running || target = .cancelled || target = .blocked
    | .blocked => target = .pending || target = .cancelled
    | .pending => target = .running || target = .cancelled || target = .failed
    | .running => target = .succeeded || target = .failed || target = .cancelled || target = .retrying
    | .failed => target = .retrying || target = .cancelled
    | .retrying => target = .running || target = .failed || target = .cancelled
    | .cancelled => target = .created
    | .succeeded => false

/-- Modelled from the spec (section 3): the transition relation as written
in the specification, used to compare the code's `isValidTransition`
against the spec's words.  `CREATED → {PENDING, RUNNING, BLOCKED,
CANCELLED}`; `BLOCKED → {PENDING, CANCELLED}`; `PENDING → {RUNNING,
FAILED, CANCELLED}`; `RUNNING → {SUCCEEDED, FAILED, RETRYING,
CANCELLED}`; `RETRYING → {RUNNING, FAILED, CANCELLED}`; `FAILED →
{RETRYING, CANCELLED}`; `CANCELLED → {CREATED}`; `SUCCEEDED` terminal. -/
def specTransition (current target : Status) : Bool :=
  match current with
  | .created => target = .pending || target = .running || target = .blocked || target = .cancelled
  | .blocked => target = .pending || target = .cancelled
  | .pending => target = .running || target = .failed || target = .cancelled
  | .running => target = .succeeded || target = .failed || target = .retrying || target = .cancelled
  | .retrying => target = .running || target = .failed || target = .cancelled
  | .failed => target = .retrying || target = .cancelled
  | .cancelled => target = .created
  | .succeeded => false

/-! ## Graph data model (internal/dag/graph.go) -/

/-- Embedding of `Node` (graph.go:27-36).  `Config` is an association
list standing for the Go `map[string]string`; `RelevanceScore` is a
rational standing for the `float64` score in `[0,1]`. -/
structure Node where
  id : String
  type : String
  config : List (String × String)
  status : Status
  relevanceScore : ℚ
  depth : Int
  retryCount : Int
  lastError : String
deriving DecidableEq, Repr

/-- Embedding of `Edge` (graph.go:51-54); `fromId`/`toId` stand for the
Go fields `From`/`To` (`from` is a Lean keyword). -/
structure Edge where
  fromId : String
  toId : String
deriving DecidableEq, Repr

/-- Embedding of `Signal` (graph.go:57-61). -/
structure Signal where
  type : String
  source : String
  payload : List (String × String)
deriving DecidableEq, Repr

/-- Embedding of `Graph` (graph.go:64-73); the optional storage handle is
not modelled (the claims under proof concern the in-memory behaviour,
and all storage writes on the modelled paths only log warnings). -/
structure Graph where
  id : String
  nodes : List Node
  edges : List Edge
  status : Status
  metadata : List (String × String)
deriving DecidableEq, Repr

/-- Lookup in an association list standing for a Go `map[string]string`
built by iterated assignment: the last write wins, a missing key gives
`none` (the Go zero value). -/
def assocLookup (m : List (String × String)) (k : String) : Option String :=
  m.foldl (fun acc p => if p.1 = k then some p.2 else acc) none

/-- Typed errors standing for the `fmt.Errorf` strings produced by the
dag package; distinct constructors stand for distinct messages. -/
inductive DagError
  | invalidNodeTransition (nodeID : String) (current target : Status)
  | invalidGraphTransition (current target : Status)
  | nodeNotFound (nodeID : String)
  | missingEntity
  | missingGoal
  | notRelevant (entity goal : String)
  | sourceNotFound (source : String)
  | maxDepthReached
  | readinessFailed (nodeID : String) (inner : DagError)
  | scheduleFailed (nodeID : String) (inner : DagError)
deriving DecidableEq, Repr

/-- Embedding of the loop body of `Graph.SetNodeStatus`
(transitions.go:147-158): find the first node with the given ID, check
the transition, update in place. -/
def setNodeStatusList (nodes : List Node) (nodeID : String) (s : Status) :
    Except DagError (List Node) :=
  match nodes with
  | [] => .error (.nodeNotFound nodeID)
  | n :: rest =>
    if n.id = nodeID then
      if isValidTransition n.status s then
        .ok ({ n with status := s } :: rest)
      else
        .error (.invalidNodeTransition nodeID n.status s)
    else
      (setNodeStatusList rest nodeID s).map (n :: ·)

/-- Embedding of `Graph.SetNodeStatus` (transitions.go:147-158). -/
def Graph.setNodeStatus (g : Graph) (nodeID : String) (s : Status) :
    Except DagError Graph :=
  (setNodeStatusList g.nodes nodeID s).map fun ns => { g with nodes := ns }

/-- Embedding of `Graph.SetStatus` (transitions.go:136-144), the
graph-level status setter. -/
def Graph.setStatus (g : Graph) (s : Status) : Except DagError Graph :=
  if isValidTransition g.status s then .ok { g with status := s }
  else .error (.invalidGraphTransition g.status s)

/-! ## Theorems for claim C2 -/

/-- The code's transition predicate agrees with the spec's relation on
all pairs except that the code additionally accepts every
self-transition. -/
theorem isValidTransition_eq_self_or_spec (c t : Status) :
    isValidTransition c t = (decide (c = t) || specTransition c t) := by
  revert c t; decide

/-- A one-node graph whose node is `SUCCEEDED`, used to exhibit the
self-transition behaviour of `SetNodeStatus`. -/
def gSelfLoop : Graph :=
  { id := "g"
    nodes := [{ id := "a", type := "researcher", config := [], status := .succeeded,
                relevanceScore := 1, depth := 0, retryCount := 0, lastError := "" }]
    edges := []
    status := .succeeded
    metadata := [] }

/-- C2 counterexample: `SetNodeStatus` on a `SUCCEEDED` node with target
`SUCCEEDED` succeeds even though `(SUCCEEDED, SUCCEEDED)` is not an edge
of the spec's transition relation (the spec makes `SUCCEEDED` terminal),
so the claimed "succeeds exactly when the pair is an edge of the
spec relation" is false; the graph-level setter shows the same
discrepancy. -/
theorem c2_counterexample :
    (gSelfLoop.setNodeStatus "a" .succeeded).isOk = true ∧
      specTransition .succeeded .succeeded = false ∧
      (gSelfLoop.setStatus .succeeded).isOk = true := by
  decide

/-- Characterisation of the `SetNodeStatus` search loop when the target
node sits at index `i` and no earlier node carries its ID. -/
theorem setNodeStatusList_spec (nodes : List Node) (i : Nat) (n : Node) (target : Status)
    (hn : nodes.get? i = some n)
    (hfirst : ∀ j m, j < i → nodes.get? j = some m → m.id ≠ n.id) :
    setNodeStatusList nodes n.id target =
      if isValidTransition n.status target then
        .ok (nodes.set i { n with status := target })
      else
        .error (.invalidNodeTransition n.id n.status target) := by
  induction nodes generalizing i with
  | nil => simp at hn
  | cons m rest ih =>
    cases i with
    | zero =>
      replace hn : m = n := by simpa using hn
      rw [hn]
      simp only [setNodeStatusList, if_pos rfl, List.set_cons_zero]
      simp
    | succ j =>
      have hm0 : m.id ≠ n.id := hfirst 0 m (Nat.succ_pos j) rfl
      simp only [List.get?_cons_succ] at hn
      have hrest := ih j hn (fun k m' hk hget => hfirst (k + 1) m' (Nat.succ_lt_succ hk) hget)
      simp only [setNodeStatusList, if_neg hm0, hrest]
      by_cases hv : isValidTransition n.status target
      · simp [hv, Except.map]
      · simp [hv, Except.map]

/-- C2 amended: `SetNodeStatus(id, target)` on the (unique) node with
that ID succeeds and writes `target` exactly when `current = target` or
`(current, target)` is an edge of the spec's transition relation, and
otherwise fails with the invalid-transition error leaving the graph
untouched; the graph-level setter `SetStatus` behaves the same. -/
theorem c2_set_status_iff_spec_or_self (g : Graph) (i : Nat) (n : Node) (target : Status)
    (hn : g.nodes.get? i = some n)
    (hfirst : ∀ j m, j < i → g.nodes.get? j = some m → m.id ≠ n.id) :
    (g.setNodeStatus n.id target =
        .ok { g with nodes := g.nodes.set i { n with status := target } } ↔
      (n.status = target ∨ specTransition n.status target = true)) ∧
    (g.setNodeStatus n.id target =
        .error (.invalidNodeTransition n.id n.status target) ↔
      ¬(n.status = target ∨ specTransition n.status target = true)) ∧
    (g.setStatus target = .ok { g with status := target } ↔
      (g.status = target ∨ specTransition g.status target = true)) ∧
    (g.setStatus target = .error (.invalidGraphTransition g.status target) ↔
      ¬(g.status = target ∨ specTransition g.status target = true)) := by
  have hlist := setNodeStatusList_spec g.nodes i n target hn hfirst
  have hvalid : isValidTransition n.status target =
      (decide (n.status = target) || specTransition n.status target) :=
    isValidTransition_eq_self_or_spec n.status target
  have hvalidg : isValidTransition g.status target =
      (decide (g.status = target) || specTransition g.status target) :=
    isValidTransition_eq_self_or_spec g.status target
  have hdisj : ∀ hv : n.status = target ∨ specTransition n.status target = true,
      isValidTransition n.status target = true := by
    intro hv
    rw [hvalid]
    rcases hv with h | h
    · simp [h]
    · simp [h]
  have hdisjg : ∀ hv : g.status = target ∨ specTransition g.status target = true,
      isValidTransition g.status target = true := by
    intro hv
    rw [hvalidg]
    rcases hv with h | h
    · simp [h]
    · simp [h]
  refine ⟨?_, ?_, ?_, ?_⟩
  · unfold Graph.setNodeStatus
    rw [hlist]
    by_cases hv : n.status = target ∨ specTransition n.status target = true
    · rw [if_pos (hdisj hv)]
      exact iff_of_true rfl hv
    · have hvb : isValidTransition n.status target = false := by
        rw [hvalid]
        push_neg at hv
        simp [hv.1, hv.2]
      rw [if_neg (by simp [hvb])]
      exact iff_of_false (by simp [Except.map]) hv
  · unfold Graph.setNodeStatus
    rw [hlist]
    by_cases hv : n.status = target ∨ specTransition n.status target = true
    · rw [if_pos (hdisj hv)]
      exact iff_of_false (by simp [Except.map]) (not_not_intro hv)
    · have hvb : isValidTransition n.status target = false := by
        rw [hvalid]
        push_neg at hv
        simp [hv.1, hv.2]
      rw [if_neg (by simp [hvb])]
      exact iff_of_true rfl hv
  · unfold Graph.setStatus
    by_cases hv : g.status = target ∨ specTransition g.status target = true
    · rw [if_pos (hdisjg hv)]
      exact iff_of_true rfl hv
    · have hvb : isValidTransition g.status target = false := by
        rw [hvalidg]
        push_neg at hv
        simp [hv.1, hv.2]
      rw [if_neg (by simp [hvb])]
      exact iff_of_false (by simp) hv
  · unfold Graph.setStatus
    by_cases hv : g.status = target ∨ specTransition g.status target = true
    · rw [if_pos (hdisjg hv)]
      exact iff_of_false (by simp) (not_not_intro hv)
    · have hvb : isValidTransition g.status target = false := by
        rw [hvalidg]
        push_neg at hv
        simp [hv.1, hv.2]
      rw [if_neg (by simp [hvb])]
      exact iff_of_true rfl hv

/-- Two-node graph used to instantiate the amended C2 theorem. -/
def gC2w : Graph :=
  { id := "g"
    nodes := [{ id := "a", type := "researcher", config := [], status := .created,
                relevanceScore := 1, depth := 0, retryCount := 0, lastError := "" },
              { id := "b", type := "critic", config := [], status := .pending,
                relevanceScore := 1, depth := 0, retryCount := 0, lastError := "" }]
    edges := [{ fromId := "a", toId := "b" }]
    status := .running
    metadata := [] }

/-- The node `b` of `gC2w` before the witness transition. -/
def nodeBpending : Node :=
  { id := "b", type := "critic", config := [], status := .pending,
    relevanceScore := 1, depth := 0, retryCount := 0, lastError := "" }

/-- Concrete instantiation of `c2_set_status_iff_spec_or_self` at node
`b` of `gC2w` with target `RUNNING`. -/
theorem c2_set_status_iff_spec_or_self_witness :
    gC2w.setNodeStatus "b" .running =
      .ok { gC2w with nodes := gC2w.nodes.set 1 { nodeBpending with status := .running } } := by
  have hfirst : ∀ j m, j < 1 → gC2w.nodes.get? j = some m → m.id ≠ nodeBpending.id := by
    intro j m hj hget
    have hj0 : j = 0 := Nat.lt_one_iff.mp hj
    subst hj0
    simp only [gC2w, List.get?_cons_zero, Option.some.injEq] at hget
    rw [← hget]
    decide
  have h := c2_set_status_iff_spec_or_self gC2w 1 nodeBpending .running rfl hfirst
  exact h.1.mpr (Or.inr (by decide))

/-! ## Readiness evaluation (transitions.go:77-132) -/

/-- Embedding of the `nodeStatus` map built at the top of
`EvaluateReadiness` (transitions.go:79-82): iterated assignment, so the
last node with a given ID wins; a missing ID gives `none`. -/
def lookupStatus (nodes : List Node) (id : String) : Option Status :=
  nodes.foldl (fun acc n => if n.id = id then some n.status else acc) none

/-- Embedding of the reverse adjacency map `parents` built in
`EvaluateReadiness` (transitions.go:85-88): sources of the edges into a
node, in edge order. -/
def parentsOf (edges : List Edge) (id : String) : List String :=
  edges.filterMap fun e => if e.toId = id then some e.fromId else none

/-- Embedding of the parent scan of `EvaluateReadiness`
(transitions.go:99-112) with the Go loop's break semantics; the pair is
`(allParentsSucceeded, hasRetryingParent)`. -/
def checkParents (nodeStatus : String → Option Status) : List String → Bool × Bool
  | [] => (true, false)
  | p :: rest =>
    if nodeStatus p = some .retrying then (false, true)
    else if nodeStatus p ≠ some .succeeded then (false, false)
    else checkParents nodeStatus rest

/-- The target status computed for a `CREATED`/`BLOCKED` node by
`EvaluateReadiness` (transitions.go:114-122): `PENDING` when all parents
are `SUCCEEDED`, `BLOCKED` otherwise (both else-branches of the Go code
produce `BLOCKED`). -/
def readinessTarget (nodeStatus : String → Option Status) (parentIds : List String) : Status :=
  if (checkParents nodeStatus parentIds).1 then .pending else .blocked

/-- The sweep of `EvaluateReadiness` (transitions.go:91-130), processing
the node at index `i` of the evolving graph, with fuel bounding the walk
(instantiated with the node-list length, which `SetNodeStatus`
preserves). -/
def evalReadinessAux (nodeStatus : String → Option Status) (edges : List Edge) :
    Nat → Nat → Graph → Except DagError Graph
  | 0, _, g => .ok g
  | fuel + 1, i, g =>
    match g.nodes.get? i with
    | none => .ok g
    | some n =>
      if n.status = .created ∨ n.status = .blocked then
        if n.status = readinessTarget nodeStatus (parentsOf edges n.id) then
          evalReadinessAux nodeStatus edges fuel (i + 1) g
        else
          match g.setNodeStatus n.id (readinessTarget nodeStatus (parentsOf edges n.id)) with
          | .error e => .error (.readinessFailed n.id e)
          | .ok g2 => evalReadinessAux nodeStatus edges fuel (i + 1) g2
      else
        evalReadinessAux nodeStatus edges fuel (i + 1) g

/-- Embedding of `Graph.EvaluateReadiness` (transitions.go:77-132). -/
def Graph.evaluateReadiness (g : Graph) : Except DagError Graph :=
  evalReadinessAux (lookupStatus g.nodes) g.edges g.nodes.length 0 g

/-- The effect of one readiness sweep on a single node: waiting nodes
take the readiness target, all others are untouched. -/
def finalizeNode (nodeStatus : String → Option Status) (edges : List Edge) (n : Node) : Node :=
  if n.status = .created ∨ n.status = .blocked then
    { n with status := readinessTarget nodeStatus (parentsOf edges n.id) }
  else n

/-- The `allParentsSucceeded` flag of the parent scan is true exactly
when every parent's looked-up status is `SUCCEEDED`. -/
theorem checkParents_fst_iff (nodeStatus : String → Option Status) (l : List String) :
    (checkParents nodeStatus l).1 = true ↔ ∀ p ∈ l, nodeStatus p = some .succeeded := by
  induction l with
  | nil => simp [checkParents]
  | cons p rest ih =>
    by_cases hr : nodeStatus p = some .retrying
    · simp [checkParents, hr]
    · by_cases hs : nodeStatus p = some .succeeded
      · simp [checkParents, hr, hs, ih]
      · simp [checkParents, hr, hs]

/-- Setting an element at the junction index of an appended list. -/
theorem set_append_cons {α : Type} (pre : List α) (n x : α) (rest : List α) :
    (pre ++ n :: rest).set pre.length x = pre ++ x :: rest := by
  induction pre with
  | nil => rfl
  | cons a pre ih => simp [List.set_cons_succ, ih]

/-- Updating a node's status field to its current value is the
identity. -/
theorem node_update_status_self (n : Node) : { n with status := n.status } = n := rfl

/-- Characterisation of the readiness sweep: processing the suffix
`post` of the node list (starting at index `pre.length`) finalizes every
node of `post` and touches nothing else, provided node IDs are unique
and the fuel covers the suffix. -/
theorem evalReadinessAux_spec (nodeStatus : String → Option Status) (edges : List Edge) :
    ∀ (post pre : List Node) (g : Graph) (fuel : Nat),
      g.nodes = pre ++ post →
      (g.nodes.map Node.id).Nodup →
      post.length ≤ fuel →
      evalReadinessAux nodeStatus edges fuel pre.length g =
        .ok { g with nodes := pre ++ post.map (finalizeNode nodeStatus edges) } := by
  intro post
  induction post with
  | nil =>
    intro pre g fuel hnodes _ _
    have hget : g.nodes.get? pre.length = none := by
      rw [hnodes]
      exact List.get?_eq_none.mpr (by simp)
    have hpre : pre ++ ([] : List Node).map (finalizeNode nodeStatus edges) = g.nodes := by
      simp [hnodes]
    rw [hpre]
    cases fuel with
    | zero => rfl
    | succ f =>
      simp only [evalReadinessAux, hget]
  | cons n rest ih =>
    intro pre g fuel hnodes hnodup hfuel
    cases fuel with
    | zero => simp at hfuel
    | succ f =>
      have hget : g.nodes.get? pre.length = some n := by
        rw [hnodes, List.get?_append_right (le_refl pre.length)]
        simp
      simp only [evalReadinessAux, hget]
      by_cases hcb : n.status = .created ∨ n.status = .blocked
      · rw [if_pos hcb]
        by_cases heq : n.status = readinessTarget nodeStatus (parentsOf edges n.id)
        · rw [if_pos heq]
          have hrec := ih (pre ++ [n]) g f (by rw [hnodes]; simp) hnodup
            (by simpa using Nat.le_of_succ_le_succ hfuel)
          have hlen : (pre ++ [n]).length = pre.length + 1 := by simp
          rw [hlen] at hrec
          rw [hrec]
          have hfin : finalizeNode nodeStatus edges n = n := by
            unfold finalizeNode
            rw [if_pos hcb, ← heq]
          rw [List.map_cons, hfin]
          simp
        · rw [if_neg heq]
          have htv : readinessTarget nodeStatus (parentsOf edges n.id) = .pending ∨
              readinessTarget nodeStatus (parentsOf edges n.id) = .blocked := by
            unfold readinessTarget
            by_cases hc : (checkParents nodeStatus (parentsOf edges n.id)).1 = true
            · left; rw [if_pos hc]
            · right; rw [if_neg hc]
          have hvalid : isValidTransition n.status
              (readinessTarget nodeStatus (parentsOf edges n.id)) = true := by
            rcases hcb with h1 | h1 <;> rcases htv with h2 | h2 <;> rw [h1, h2]
            · rfl
            · rfl
            · rfl
            · exact absurd (h1.trans h2.symm) heq
          have hfirst : ∀ j m, j < pre.length → g.nodes.get? j = some m → m.id ≠ n.id := by
            intro j m hj hg hmn
            rw [hnodes, List.get?_append hj] at hg
            have hm : m ∈ pre := List.get?_mem hg
            rw [hnodes] at hnodup
            simp only [List.map_append, List.map_cons] at hnodup
            have hdisj := (List.nodup_append.mp hnodup).2.2
            exact hdisj (List.mem_map_of_mem Node.id hm)
              (by rw [hmn]; exact List.mem_cons_self _ _)
          have hset := setNodeStatusList_spec g.nodes pre.length n
            (readinessTarget nodeStatus (parentsOf edges n.id)) hget hfirst
          rw [if_pos hvalid] at hset
          have hsetg : g.setNodeStatus n.id (readinessTarget nodeStatus (parentsOf edges n.id)) =
              .ok { g with nodes :=
                pre ++ { n with status := readinessTarget nodeStatus (parentsOf edges n.id) } :: rest } := by
            unfold Graph.setNodeStatus
            rw [hset]
            simp only [Except.map]
            rw [hnodes, set_append_cons]
          rw [hsetg]
          show evalReadinessAux nodeStatus edges f (pre.length + 1)
              { g with nodes :=
                pre ++ { n with status := readinessTarget nodeStatus (parentsOf edges n.id) } :: rest } = _
          have hids : (({ g with nodes :=
              pre ++ { n with status := readinessTarget nodeStatus (parentsOf edges n.id) } :: rest } :
                Graph).nodes.map Node.id).Nodup := by
            have heqids : (pre ++ { n with status := readinessTarget nodeStatus (parentsOf edges n.id) }
                :: rest).map Node.id = (pre ++ n :: rest).map Node.id := by simp
            rw [hnodes] at hnodup
            simpa [heqids] using hnodup
          have hrec := ih
            (pre ++ [{ n with status := readinessTarget nodeStatus (parentsOf edges n.id) }])
            { g with nodes :=
                pre ++ { n with status := readinessTarget nodeStatus (parentsOf edges n.id) } :: rest }
            f (by simp) hids (by simpa using Nat.le_of_succ_le_succ hfuel)
          have hlen : (pre ++ [{ n with
              status := readinessTarget nodeStatus (parentsOf edges n.id) }]).length
              = pre.length + 1 := by simp
          rw [hlen] at hrec
          rw [hrec]
          have hfin : finalizeNode nodeStatus edges n =
              { n with status := readinessTarget nodeStatus (parentsOf edges n.id) } := by
            unfold finalizeNode
            rw [if_pos hcb]
          rw [List.map_cons, hfin]
          simp
      · rw [if_neg hcb]
        have hrec := ih (pre ++ [n]) g f (by rw [hnodes]; simp) hnodup
          (by simpa using Nat.le_of_succ_le_succ hfuel)
        have hlen : (pre ++ [n]).length = pre.length + 1 := by simp
        rw [hlen] at hrec
        rw [hrec]
        have hfin : finalizeNode nodeStatus edges n = n := by
          unfold finalizeNode
          rw [if_neg hcb]
        rw [List.map_cons, hfin]
        simp

/-- C3: after a successful `EvaluateReadiness` on a graph with unique
node IDs (invariant I1, enforced by validation), every node that was
`CREATED` or `BLOCKED` ends in `PENDING` when all its parents (sources
of edges into it) are `SUCCEEDED` — vacuously for parentless nodes —
and in `BLOCKED` otherwise (in particular when a parent is `RETRYING`,
whose looked-up status is not `SUCCEEDED`); nodes in any other status
are untouched. -/
theorem c3_readiness_pending_iff_parents_succeeded (g g' : Graph)
    (huniq : (g.nodes.map Node.id).Nodup)
    (h : g.evaluateReadiness = .ok g') :
    ∀ i n, g.nodes.get? i = some n →
      ∃ n', g'.nodes.get? i = some n' ∧ n'.id = n.id ∧
        ((n.status = .created ∨ n.status = .blocked) →
          n'.status = if ∀ p ∈ parentsOf g.edges n.id,
              lookupStatus g.nodes p = some .succeeded then Status.pending else Status.blocked) ∧
        (¬(n.status = .created ∨ n.status = .blocked) → n' = n) := by
  have hspec := evalReadinessAux_spec (lookupStatus g.nodes) g.edges g.nodes [] g
    g.nodes.length (by simp) huniq (le_refl _)
  simp only [List.nil_append, List.length_nil] at hspec
  unfold Graph.evaluateReadiness at h
  rw [hspec] at h
  simp only [Except.ok.injEq] at h
  intro i n hget
  refine ⟨finalizeNode (lookupStatus g.nodes) g.edges n, ?_, ?_, ?_, ?_⟩
  · rw [← h]
    show (g.nodes.map (finalizeNode (lookupStatus g.nodes) g.edges)).get? i = _
    rw [List.get?_map, hget, Option.map_some']
  · unfold finalizeNode
    by_cases hcb : n.status = .created ∨ n.status = .blocked
    · rw [if_pos hcb]
    · rw [if_neg hcb]
  · intro hcb
    unfold finalizeNode
    rw [if_pos hcb]
    show readinessTarget (lookupStatus g.nodes) (parentsOf g.edges n.id) = _
    unfold readinessTarget
    by_cases hall : ∀ p ∈ parentsOf g.edges n.id, lookupStatus g.nodes p = some .succeeded
    · rw [if_pos ((checkParents_fst_iff _ _).mpr hall), if_pos hall]
    · rw [if_neg (fun hc => hall ((checkParents_fst_iff _ _).mp hc)), if_neg hall]
  · intro hncb
    unfold finalizeNode
    rw [if_neg hncb]

/-- Three-node graph used to instantiate C3: `a` is `SUCCEEDED`, its
child `b` is `CREATED`, and `b`'s child `c` is `BLOCKED`. -/
def gC3w : Graph :=
  { id := "g"
    nodes := [{ id := "a", type := "researcher", config := [], status := .succeeded,
                relevanceScore := 1, depth := 0, retryCount := 0, lastError := "" },
              { id := "b", type := "critic", config := [], status := .created,
                relevanceScore := 1, depth := 0, retryCount := 0, lastError := "" },
              { id := "c", type := "synthesizer", config := [], status := .blocked,
                relevanceScore := 1, depth := 0, retryCount := 0, lastError := "" }]
    edges := [{ fromId := "a", toId := "b" }, { fromId := "b", toId := "c" }]
    status := .running
    metadata := [] }

/-- The result of `EvaluateReadiness` on `gC3w`: `b` becomes `PENDING`
(its only parent `a` is `SUCCEEDED`), `c` stays `BLOCKED`. -/
def gC3w' : Graph :=
  { gC3w with nodes :=
      [{ id := "a", type := "researcher", config := [], status := .succeeded,
         relevanceScore := 1, depth := 0, retryCount := 0, lastError := "" },
       { id := "b", type := "critic", config := [], status := .pending,
         relevanceScore := 1, depth := 0, retryCount := 0, lastError := "" },
       { id := "c", type := "synthesizer", config := [], status := .blocked,
         relevanceScore := 1, depth := 0, retryCount := 0, lastError := "" }] }

/-- Concrete instantiation of the C3 theorem on `gC3w`: node `b` (which
was `CREATED` with its only parent `SUCCEEDED`) ends in `PENDING`. -/
theorem c3_readiness_pending_iff_parents_succeeded_witness :
    ∃ n', gC3w'.nodes.get? 1 = some n' ∧ n'.status = .pending := by
  have h := c3_readiness_pending_iff_parents_succeeded gC3w gC3w' (by decide) rfl
  obtain ⟨n', hget, _, hcb, _⟩ := h 1
    { id := "b", type := "critic", config := [], status := .created,
      relevanceScore := 1, depth := 0, retryCount := 0, lastError := "" } rfl
  have hst := hcb (Or.inl rfl)
  rw [if_pos (by decide)] at hst
  exact ⟨n', hget, hst⟩

/-! ## Scheduler (internal/dag/scheduler.go) -/

/-- The scheduler's selection order (scheduler.go:62-69): `a` may come
before `b` when `a` has strictly higher relevance, or equal relevance
and a lexicographically no-larger ID.  This is the complement of the Go
comparator `less(b, a)`; `sort.Slice` is unstable, but on candidate
sets with distinct IDs this relation is total and antisymmetric, so the
sorted result is unique and insertion sort computes it. -/
def schedPriority (a b : Node) : Prop :=
  b.relevanceScore < a.relevanceScore ∨
    (a.relevanceScore = b.relevanceScore ∧ a.id ≤ b.id)

instance : DecidableRel schedPriority := fun a b =>
  decidable_of_iff (b.relevanceScore < a.relevanceScore ∨
      (a.relevanceScore = b.relevanceScore ∧ a.id.toList ≤ b.id.toList)) <| by
    unfold schedPriority
    rw [String.le_iff_toList_le]

instance : IsTotal Node schedPriority where
  total a b := by
    unfold schedPriority
    rcases lt_trichotomy a.relevanceScore b.relevanceScore with h | h | h
    · exact Or.inr (Or.inl h)
    · rcases le_total a.id b.id with hid | hid
      · exact Or.inl (Or.inr ⟨h, hid⟩)
      · exact Or.inr (Or.inr ⟨h.symm, hid⟩)
    · exact Or.inl (Or.inl h)

instance : IsTrans Node schedPriority where
  trans a b c hab hbc := by
    unfold schedPriority at *
    rcases hab with h1 | ⟨h1, h1'⟩ <;> rcases hbc with h2 | ⟨h2, h2'⟩
    · exact Or.inl (h2.trans h1)
    · exact Or.inl (h2 ▸ h1)
    · exact Or.inl (h1 ▸ h2)
    · exact Or.inr ⟨h1.trans h2, h1'.trans h2'⟩

/-- Embedding of the transition loop of `ScheduleNextBatch`
(scheduler.go:79-91): transition each selected node to `RUNNING`,
accumulating the transitioned nodes (in reverse); on failure, roll the
earlier ones back to `PENDING` and report the error. -/
def transitionBatch (g : Graph) :
    List Node → List Node → Except DagError (List Node) × Graph
  | [], transitioned => (.ok transitioned.reverse, g)
  | node :: rest, transitioned =>
    match g.setNodeStatus node.id .running with
    | .error e =>
      (.error (.scheduleFailed node.id e),
       (transitioned.reverse).foldl
         (fun acc rbn =>
           match acc.setNodeStatus rbn.id .pending with
           | .ok g2 => g2
           | .error _ => acc) g)
    | .ok g2 => transitionBatch g2 rest ({ node with status := .running } :: transitioned)

/-- Embedding of `Graph.ScheduleNextBatch` (scheduler.go:43-94), with
the Go locals inlined: `maxNodes <= 0` is clamped to `1`
(scheduler.go:44-46), the candidates are the `PENDING` nodes in list
order, `selectCount` is the candidate count capped at the clamped
`maxNodes`, and the first `selectCount` sorted candidates are
transitioned to `RUNNING`. -/
def Graph.scheduleNextBatch (g : Graph) (maxNodes : Int) :
    Except DagError (List Node) × Graph :=
  if (g.nodes.filter fun n => n.status = .pending).isEmpty then (.ok [], g)
  else
    transitionBatch g
      ((List.insertionSort schedPriority (g.nodes.filter fun n => n.status = .pending)).take
        (if ((List.insertionSort schedPriority
              (g.nodes.filter fun n => n.status = .pending)).length : Int) <
            (if maxNodes ≤ 0 then 1 else maxNodes)
         then ((List.insertionSort schedPriority
              (g.nodes.filter fun n => n.status = .pending)).length : Int)
         else (if maxNodes ≤ 0 then 1 else maxNodes)).toNat)
      []

/-- One-node graph with a single `PENDING` node, exhibiting the
clamping of `maxNodes <= 0`. -/
def gC4 : Graph :=
  { id := "g"
    nodes := [{ id := "p", type := "researcher", config := [], status := .pending,
                relevanceScore := 1, depth := 0, retryCount := 0, lastError := "" }]
    edges := []
    status := .running
    metadata := [] }

/-- C4 counterexample: with one `PENDING` candidate and `maxN = 0`,
`ScheduleNextBatch` clamps `maxN` to `1` and schedules one node, not
`min(0, 1) = 0` nodes as the claim (quantified over every `maxN`)
demands. -/
theorem c4_counterexample :
    gC4.scheduleNextBatch 0 =
      (.ok [{ id := "p", type := "researcher", config := [], status := .running,
              relevanceScore := 1, depth := 0, retryCount := 0, lastError := "" }],
       { gC4 with nodes := [{ id := "p", type := "researcher", config := [], status := .running,
                              relevanceScore := 1, depth := 0, retryCount := 0, lastError := "" }] }) := by
  rfl

/-- Two nodes at distinct positions of a list with duplicate-free IDs
have distinct IDs. -/
theorem nodup_ids_get?_ne (l : List Node) (h : (l.map Node.id).Nodup)
    {i j : Nat} (hij : i ≠ j) {a b : Node}
    (ha : l.get? i = some a) (hb : l.get? j = some b) : a.id ≠ b.id := by
  intro hab
  have hi' : (l.map Node.id).get? i = some a.id := by rw [List.get?_map, ha]; rfl
  have hj' : (l.map Node.id).get? j = some b.id := by rw [List.get?_map, hb]; rfl
  have hilen : i < l.length := by
    by_contra hle
    rw [List.get?_eq_none.mpr (le_of_not_lt hle)] at ha
    exact absurd ha (by simp)
  have hjlen : j < l.length := by
    by_contra hle
    rw [List.get?_eq_none.mpr (le_of_not_lt hle)] at hb
    exact absurd hb (by simp)
  rcases Nat.lt_or_gt_of_ne hij with hlt | hlt
  · exact (List.nodup_iff_get?_ne_get?.mp h) i j hlt (by simpa using hjlen)
      (by rw [hi', hj', hab])
  · exact (List.nodup_iff_get?_ne_get?.mp h) j i hlt (by simpa using hilen)
      (by rw [hi', hj', hab])

/-- Setting a node's status does not change the list of node IDs. -/
theorem map_id_set (l : List Node) {i : Nat} {s : Node} (hi : l.get? i = some s)
    (x : Node) (hx : x.id = s.id) :
    ((l.set i x).map Node.id) = l.map Node.id := by
  apply List.ext
  intro j
  by_cases hji : j = i
  · subst hji
    have hjlen : j < l.length := by
      by_contra hle
      rw [List.get?_eq_none.mpr (le_of_not_lt hle)] at hi
      exact absurd hi (by simp)
    rw [List.get?_map, List.get?_map, hi, List.get?_set_eq_of_lt _ (by simpa using hjlen)]
    simp [hx]
  · rw [List.get?_map, List.get?_map, List.get?_set_ne _ _ (Ne.symm hji)]

/-- The transition loop of `ScheduleNextBatch` succeeds on any
duplicate-free selection of `PENDING` nodes of the graph, transitions
exactly the selected IDs to `RUNNING`, and leaves everything else
unchanged. -/
theorem transitionBatch_ok (sel : List Node) :
    ∀ (g : Graph) (acc : List Node),
      (g.nodes.map Node.id).Nodup →
      (sel.map Node.id).Nodup →
      (∀ s ∈ sel, ∃ i, g.nodes.get? i = some s ∧ s.status = .pending) →
      ∃ g', transitionBatch g sel acc =
          (.ok (acc.reverse ++ sel.map fun s => { s with status := .running }), g') ∧
        (∀ j m, g.nodes.get? j = some m →
          g'.nodes.get? j = some (if m.id ∈ sel.map Node.id
            then { m with status := .running } else m)) ∧
        g'.edges = g.edges ∧ g'.status = g.status := by
  induction sel with
  | nil =>
    intro g acc _ _ _
    refine ⟨g, by simp [transitionBatch], ?_, rfl, rfl⟩
    intro j m hm
    simpa using hm
  | cons s rest ih =>
    intro g acc hgids hselids hsel
    obtain ⟨i, hgi, hps⟩ := hsel s (List.mem_cons_self s rest)
    have hfirst : ∀ j m, j < i → g.nodes.get? j = some m → m.id ≠ s.id := by
      intro j m hj hm
      exact nodup_ids_get?_ne g.nodes hgids (Nat.ne_of_lt hj) hm hgi
    have hvalid : isValidTransition s.status .running = true := by
      rw [hps]; rfl
    have hset := setNodeStatusList_spec g.nodes i s .running hgi hfirst
    rw [if_pos hvalid] at hset
    have hsetg : g.setNodeStatus s.id .running =
        .ok { g with nodes := g.nodes.set i { s with status := .running } } := by
      unfold Graph.setNodeStatus
      rw [hset]
      rfl
    have hid_head : s.id ∉ rest.map Node.id := by
      simp only [List.map_cons, List.nodup_cons] at hselids
      exact hselids.1
    have hg2ids : (({ g with nodes := g.nodes.set i { s with status := .running } } :
        Graph).nodes.map Node.id).Nodup := by
      show ((g.nodes.set i { s with status := .running }).map Node.id).Nodup
      rw [map_id_set g.nodes hgi { s with status := .running } rfl]
      exact hgids
    have hrestsel : ∀ r ∈ rest, ∃ j,
        (({ g with nodes := g.nodes.set i { s with status := .running } } :
          Graph).nodes.get? j) = some r ∧ r.status = .pending := by
      intro r hr
      obtain ⟨j, hgj, hpj⟩ := hsel r (List.mem_cons_of_mem s hr)
      have hji : j ≠ i := by
        intro hji
        subst hji
        rw [hgj] at hgi
        have : r = s := by simpa using hgi
        exact hid_head (this ▸ List.mem_map_of_mem Node.id hr)
      exact ⟨j, by show (g.nodes.set i _).get? j = some r
                   rw [List.get?_set_ne _ _ (Ne.symm hji)]
                   exact hgj,
             hpj⟩
    have hrestids : (rest.map Node.id).Nodup := by
      simp only [List.map_cons, List.nodup_cons] at hselids
      exact hselids.2
    obtain ⟨g', htb, hpoint, hedges, hstatus⟩ :=
      ih { g with nodes := g.nodes.set i { s with status := .running } }
        ({ s with status := .running } :: acc) hg2ids hrestids hrestsel
    refine ⟨g', ?_, ?_, hedges, hstatus⟩
    · simp only [transitionBatch]
      rw [hsetg]
      show transitionBatch _ rest ({ s with status := .running } :: acc) = _
      rw [htb]
      simp
    · intro j m hm
      by_cases hji : j = i
      · subst hji
        have hms : m = s := by
          rw [hm] at hgi
          simpa using hgi
        subst hms
        have hjlen : j < g.nodes.length := by
          by_contra hle
          rw [List.get?_eq_none.mpr (le_of_not_lt hle)] at hm
          exact absurd hm (by simp)
        have hg2 : ({ g with nodes := g.nodes.set j { m with status := .running } } :
            Graph).nodes.get? j = some { m with status := .running } := by
          show (g.nodes.set j _).get? j = some _
          rw [List.get?_set_eq_of_lt _ hjlen]
        have := hpoint j { m with status := .running } hg2
        rw [if_neg (by simpa using hid_head)] at this
        rw [this, if_pos (by simp)]
      · have hg2 : ({ g with nodes := g.nodes.set i { s with status := .running } } :
            Graph).nodes.get? j = some m := by
          show (g.nodes.set i _).get? j = some m
          rw [List.get?_set_ne _ _ (Ne.symm hji)]
          exact hm
        have hres := hpoint j m hg2
        have hmids : m.id ≠ s.id := nodup_ids_get?_ne g.nodes hgids hji hm hgi
        by_cases hmr : m.id ∈ rest.map Node.id
        · rw [if_pos hmr] at hres
          rw [hres, if_pos (by simp [hmr])]
        · rw [if_neg hmr] at hres
          rw [hres, if_neg (by simp [hmr, hmids])]

/-- C4 amended: for a graph with unique node IDs and `maxN ≥ 1` (the Go
code clamps `maxN ≤ 0` to 1, so the claim's arbitrary `maxN` fails at
0), `ScheduleNextBatch(maxN)` succeeds and returns exactly the first
`min(maxN, #PENDING-candidates)` nodes of the candidate list sorted by
relevance descending with lexicographically ascending ID as tie-breaker
(so of two equally relevant `PENDING` nodes the smaller ID is selected
first), each transitioned to `RUNNING`, leaving all other nodes and the
edges unchanged. -/
theorem c4_schedule_sorted_prefix (g : Graph) (maxN : Int)
    (huniq : (g.nodes.map Node.id).Nodup) (hmax : 1 ≤ maxN) :
    ∃ batch g',
      g.scheduleNextBatch maxN = (.ok batch, g') ∧
      batch = ((List.insertionSort schedPriority
          (g.nodes.filter fun n => n.status = .pending)).take
            (min maxN.toNat (g.nodes.filter fun n => n.status = .pending).length)).map
          (fun s => { s with status := .running }) ∧
      batch.length = min maxN.toNat (g.nodes.filter fun n => n.status = .pending).length ∧
      (∀ b ∈ batch, b.status = .running) ∧
      batch.Pairwise (fun a b => b.relevanceScore < a.relevanceScore ∨
        (a.relevanceScore = b.relevanceScore ∧ a.id < b.id)) ∧
      (∀ j m, g.nodes.get? j = some m →
        g'.nodes.get? j = some (if m.id ∈ batch.map Node.id
          then { m with status := .running } else m)) ∧
      g'.edges = g.edges := by
  by_cases hempty : (g.nodes.filter fun n => n.status = .pending).isEmpty
  · have hc : (g.nodes.filter fun n => n.status = .pending) = [] :=
      List.isEmpty_iff.mp hempty
    refine ⟨[], g, ?_, by simp [hc], by simp [hc], by simp, List.Pairwise.nil, ?_, rfl⟩
    · unfold Graph.scheduleNextBatch
      rw [if_pos hempty]
    · intro j m hm
      simpa using hm
  · have hslen : (List.insertionSort schedPriority
        (g.nodes.filter fun n => n.status = .pending)).length =
        (g.nodes.filter fun n => n.status = .pending).length :=
      (List.perm_insertionSort _ _).length_eq
    have hcandids : ((g.nodes.filter fun n => n.status = .pending).map Node.id).Nodup :=
      huniq.sublist ((List.filter_sublist g.nodes).map Node.id)
    have hsortids : ((List.insertionSort schedPriority
        (g.nodes.filter fun n => n.status = .pending)).map Node.id).Nodup :=
      (((List.perm_insertionSort schedPriority _).map Node.id).nodup_iff).mpr hcandids
    have hselids : (((List.insertionSort schedPriority
        (g.nodes.filter fun n => n.status = .pending)).take
          (min maxN.toNat (g.nodes.filter fun n => n.status = .pending).length)).map
        Node.id).Nodup :=
      hsortids.sublist ((List.take_sublist _ _).map Node.id)
    have hsel : ∀ s ∈ (List.insertionSort schedPriority
        (g.nodes.filter fun n => n.status = .pending)).take
          (min maxN.toNat (g.nodes.filter fun n => n.status = .pending).length),
        ∃ i, g.nodes.get? i = some s ∧ s.status = .pending := by
      intro s hs
      have hs1 : s ∈ List.insertionSort schedPriority
          (g.nodes.filter fun n => n.status = .pending) :=
        (List.take_sublist _ _).subset hs
      have hs2 : s ∈ g.nodes.filter fun n => n.status = .pending :=
        (List.mem_insertionSort _).mp hs1
      have hs3 := List.mem_filter.mp hs2
      exact ⟨Classical.choose (List.get?_of_mem hs3.1),
        Classical.choose_spec (List.get?_of_mem hs3.1), of_decide_eq_true hs3.2⟩
    obtain ⟨g', htb, hpoint, hedges, _⟩ := transitionBatch_ok _ g [] huniq hselids hsel
    refine ⟨_, g', ?_, rfl, ?_, ?_, ?_, ?_, hedges⟩
    · unfold Graph.scheduleNextBatch
      rw [if_neg hempty]
      have hclamp : (if maxN ≤ 0 then 1 else maxN) = maxN := if_neg (by omega)
      rw [hclamp]
      have hk : (if ((List.insertionSort schedPriority
            (g.nodes.filter fun n => n.status = .pending)).length : Int) < maxN
          then ((List.insertionSort schedPriority
            (g.nodes.filter fun n => n.status = .pending)).length : Int) else maxN).toNat =
          min maxN.toNat (g.nodes.filter fun n => n.status = .pending).length := by
        rw [hslen]
        by_cases hlt : ((g.nodes.filter fun n => n.status = .pending).length : Int) < maxN
        · rw [if_pos hlt]
          omega
        · rw [if_neg hlt]
          omega
      rw [hk, htb]
      simp
    · rw [List.length_map, List.length_take, hslen]
      omega
    · intro b hb
      obtain ⟨s, _, hbs⟩ := List.mem_map.mp hb
      rw [← hbs]
    · have hsorted : (List.insertionSort schedPriority
          (g.nodes.filter fun n => n.status = .pending)).Pairwise schedPriority :=
        List.sorted_insertionSort schedPriority _
      have hne : (List.insertionSort schedPriority
          (g.nodes.filter fun n => n.status = .pending)).Pairwise
            (fun a b => a.id ≠ b.id) :=
        List.pairwise_map.mp hsortids
      have hstrict : (List.insertionSort schedPriority
          (g.nodes.filter fun n => n.status = .pending)).Pairwise
            (fun a b => b.relevanceScore < a.relevanceScore ∨
              (a.relevanceScore = b.relevanceScore ∧ a.id < b.id)) := by
        refine (hsorted.and hne).imp ?_
        intro a b hab
        rcases hab.1 with h1 | ⟨h1, h1'⟩
        · exact Or.inl h1
        · exact Or.inr ⟨h1, lt_of_le_of_ne h1' hab.2⟩
      have htake := hstrict.sublist (List.take_sublist
        (min maxN.toNat (g.nodes.filter fun n => n.status = .pending).length)
        (List.insertionSort schedPriority (g.nodes.filter fun n => n.status = .pending)))
      exact List.pairwise_map.mpr (htake.imp (fun {a b} h => h))
    · intro j m hm
      have hids : (((List.insertionSort schedPriority
            (g.nodes.filter fun n => n.status = .pending)).take
              (min maxN.toNat (g.nodes.filter fun n => n.status = .pending).length)).map
            (fun s => { s with status := Status.running }) |>.map Node.id) =
          ((List.insertionSort schedPriority
            (g.nodes.filter fun n => n.status = .pending)).take
              (min maxN.toNat (g.nodes.filter fun n => n.status = .pending).length)).map
            Node.id := by
        rw [List.map_map]
        rfl
      rw [hids]
      exact hpoint j m hm

/-- Two equally relevant `PENDING` nodes, listed with the larger ID
first, to exercise the deterministic tie-breaker. -/
def gC4w : Graph :=
  { id := "g"
    nodes := [{ id := "b", type := "researcher", config := [], status := .pending,
                relevanceScore := 1, depth := 0, retryCount := 0, lastError := "" },
              { id := "a", type := "researcher", config := [], status := .pending,
                relevanceScore := 1, depth := 0, retryCount := 0, lastError := "" }]
    edges := []
    status := .running
    metadata := [] }

/-- The expected scheduling result on `gC4w`: node `a`, transitioned to
`RUNNING`. -/
def nodeArunC4 : Node :=
  { id := "a", type := "researcher", config := [], status := .running,
    relevanceScore := 1, depth := 0, retryCount := 0, lastError := "" }

/-- Concrete instantiation of the amended C4 theorem: of the two
equally relevant `PENDING` nodes of `gC4w`, `ScheduleNextBatch(1)`
selects the lexicographically smaller ID `a`. -/
theorem c4_schedule_sorted_prefix_witness :
    ∃ g', gC4w.scheduleNextBatch 1 = (.ok [nodeArunC4], g') := by
  obtain ⟨batch, g', heq, hbatch, _, _, _, _, _⟩ :=
    c4_schedule_sorted_prefix gC4w 1 (by decide) (by decide)
  have hb : batch = [nodeArunC4] := by
    rw [hbatch]
    decide
  exact ⟨g', by rw [← hb]; exact heq⟩

/-! ## Error classification (internal/retry, classifier source) -/

/-- Embedding of `ErrorType` (classifier source). -/
inductive ErrorType
  | unknown
  | transient
  | permanent
deriving DecidableEq, Repr

/-- The gRPC status codes distinguished by `classifyGRPCStatus`. -/
inductive GrpcCode
  | ok
  | canceled
  | unknown
  | invalidArgument
  | deadlineExceeded
  | notFound
  | alreadyExists
  | permissionDenied
  | resourceExhausted
  | failedPrecondition
  | aborted
  | outOfRange
  | unimplemented
  | internal
  | unavailable
  | dataLoss
  | unauthenticated
deriving DecidableEq, Repr

/-- The `syscall.Errno` values distinguished by `ClassifyError`; all
others fall into `otherErrno`. -/
inductive Errno
  | econnrefused
  | econnreset
  | etimedout
  | enetunreach
  | otherErrno
deriving DecidableEq, Repr

/-- Flat model of the Go `error` values the classifier distinguishes
through its `errors.Is`/`errors.As`/`status.FromError` chain: context
errors, `net.Error` (with its timeout flag), syscall errnos, structured
gRPC status errors, and plain errors carrying only a message. -/
inductive GoError
  | contextDeadlineExceeded
  | contextCanceled
  | netError (timeout : Bool)
  | syscallError (errno : Errno)
  | grpcError (code : GrpcCode)
  | message (text : String)
deriving DecidableEq, Repr

/-- Case-sensitive substring containment, the embedding of Go
`strings.Contains` (on the character-list view of the strings). -/
def strContains (s sub : String) : Bool :=
  decide (sub.toList <:+: s.toList)

/-- Embedding of Go `strings.ToLower` over the character list. -/
def goToLower (s : String) : List Char :=
  s.toList.map Char.toLower

/-- The transient substring patterns of `ClassifyError`. -/
def transientPatterns : List String :=
  ["timeout", "deadline exceeded", "connection refused", "connection reset",
   "temporary failure", "unavailable", "rate limit", "too many requests",
   "service unavailable", "gateway timeout", "network unreachable"]

/-- The permanent substring patterns of `ClassifyError`. -/
def permanentPatterns : List String :=
  ["invalid", "validation failed", "not found", "unauthorized", "forbidden",
   "bad request", "missing", "malformed"]

/-- Embedding of `classifyGRPCStatus`. -/
def classifyGRPCStatus (code : GrpcCode) : ErrorType :=
  match code with
  | .unavailable | .deadlineExceeded | .resourceExhausted | .aborted
  | .internal | .unknown => .transient
  | .invalidArgument | .notFound | .alreadyExists | .permissionDenied
  | .unauthenticated | .failedPrecondition | .outOfRange | .unimplemented => .permanent
  | .canceled => .permanent
  | _ => .transient

/-- Embedding of `ClassifyError`: a `nil` error (`none`) is classified
`Permanent` ("no error means no retry"); then context errors, network
errors, syscall errnos, gRPC codes, lower-cased substring heuristics,
and the transient default, in the source's priority order. -/
def classifyError (err : Option GoError) : ErrorType :=
  match err with
  | none => .permanent
  | some .contextDeadlineExceeded => .transient
  | some .contextCanceled => .permanent
  | some (.netError timeout) => if timeout then .transient else .transient
  | some (.syscallError errno) =>
    match errno with
    | .econnrefused | .econnreset | .etimedout | .enetunreach => .transient
    | .otherErrno => .permanent
  | some (.grpcError code) => classifyGRPCStatus code
  | some (.message text) =>
    let errStr := goToLower text
    if transientPatterns.any (fun pat => decide (pat.toList <:+: errStr)) then .transient
    else if permanentPatterns.any (fun pat => decide (pat.toList <:+: errStr)) then .permanent
    else .transient

/-- Embedding of `IsRetryable`: true exactly for a `Transient`
classification. -/
def isRetryable (err : Option GoError) : Bool :=
  classifyError err = ErrorType.transient

/-- C10: `ClassifyError` maps a nil error to the `Permanent`
classification, so `IsRetryable(nil)` is false and a worker result
carrying no error is never retried. -/
theorem c10_classify_nil_permanent :
    classifyError none = .permanent ∧ isRetryable none = false := by
  exact ⟨rfl, rfl⟩

/-! ## Retry policy and the worker retry loop
(internal/retry metrics source and the executor's `executeNodeAsync`) -/

/-- Embedding of `RetryPolicy`; durations are nanosecond ticks. -/
structure RetryPolicy where
  maxAttempts : Int
  initialDelay : Nat
  backoffMultiplier : ℚ
  maxDelay : Nat
deriving DecidableEq, Repr

/-- Embedding of `DefaultPolicy`: 3 retries after the initial attempt,
1s initial delay, 2x backoff, 30s cap. -/
def DefaultPolicy : RetryPolicy :=
  { maxAttempts := 3
    initialDelay := 1000000000
    backoffMultiplier := 2
    maxDelay := 30000000000 }

/-- Outcome of one invocation of `executeNode` as observed by the retry
loop: success, or failure carrying the (possibly nil) error. -/
inductive AttemptOutcome
  | success
  | failure (err : Option GoError)
deriving DecidableEq, Repr

/-- Embedding of the retry loop of `executeNodeAsync` (executor source,
`for attempt := startAttempt; attempt <= MaxAttempts; attempt++`),
counting invocations of `executeNode`.  `outcome k` is the result of
the execution on attempt `k`; `allow k` is the circuit-breaker gate
consulted before attempt `k`.  Returns the number of executions
performed from `attempt` on and whether the loop ended in success.
Checkpoint writes, status updates and the backoff sleep do not affect
the count and are elided; cancellation is not modelled. -/
def retryLoopAux (maxAttempts : Nat) (outcome : Nat → AttemptOutcome) (allow : Nat → Bool) :
    Nat → Nat → Nat × Bool
  | 0, _ => (0, false)
  | fuel + 1, attempt =>
    if attempt ≤ maxAttempts then
      if allow attempt then
        match outcome attempt with
        | .success => (1, true)
        | .failure err =>
          if isRetryable err = false then (1, false)
          else if maxAttempts ≤ attempt then (1, false)
          else
            let r := retryLoopAux maxAttempts outcome allow fuel (attempt + 1)
            (1 + r.1, r.2)
      else (0, false)
    else (0, false)

/-- The retry loop started at `startAttempt`; the fuel
`maxAttempts + 1 - startAttempt` covers every iteration the Go `for`
loop can perform. -/
def retryLoop (maxAttempts : Nat) (outcome : Nat → AttemptOutcome) (allow : Nat → Bool)
    (startAttempt : Nat) : Nat × Bool :=
  retryLoopAux maxAttempts outcome allow (maxAttempts + 1 - startAttempt) startAttempt

/-- With an always-closed breaker and every attempt failing
transiently, the loop from `attempt ≤ m` performs `m + 1 - attempt`
executions and fails. -/
theorem retryLoopAux_all_transient (m : Nat) (outcome : Nat → AttemptOutcome)
    (allow : Nat → Bool) (hallow : ∀ k, allow k = true)
    (htrans : ∀ k, ∃ e, outcome k = .failure e ∧ classifyError e = .transient) :
    ∀ fuel attempt, attempt ≤ m → m + 1 - attempt ≤ fuel →
      retryLoopAux m outcome allow fuel attempt = (m + 1 - attempt, false) := by
  intro fuel
  induction fuel with
  | zero =>
    intro attempt hle hf
    omega
  | succ fuel ih =>
    intro attempt hle hf
    obtain ⟨e, he, hc⟩ := htrans attempt
    have hr : ¬(isRetryable e = false) := by simp [isRetryable, hc]
    rw [retryLoopAux, if_pos hle, hallow attempt, if_pos rfl]
    simp only [he]
    rw [if_neg hr]
    by_cases ham : m ≤ attempt
    · rw [if_pos ham]
      have : attempt = m := by omega
      subst this
      simp
    · rw [if_neg ham]
      rw [ih (attempt + 1) (by omega) (by omega)]
      show (1 + (m + 1 - (attempt + 1)), false) = (m + 1 - attempt, false)
      congr 1
      omega

/-- With an always-closed breaker, attempts before `a + j` failing
transiently and attempt `a + j ≤ m` failing permanently, the loop from
`a` performs `j + 1` executions and fails. -/
theorem retryLoopAux_permanent_stops (m : Nat) (outcome : Nat → AttemptOutcome)
    (allow : Nat → Bool) (hallow : ∀ k, allow k = true) :
    ∀ j fuel a, a + j ≤ m → j + 1 ≤ fuel →
      (∀ k, a ≤ k → k < a + j → ∃ e, outcome k = .failure e ∧ classifyError e = .transient) →
      (∃ e, outcome (a + j) = .failure e ∧ classifyError e = .permanent) →
      retryLoopAux m outcome allow fuel a = (j + 1, false) := by
  intro j
  induction j with
  | zero =>
    intro fuel a hle hf _ hperm
    obtain ⟨e, he, hc⟩ := hperm
    obtain ⟨fuel', rfl⟩ : ∃ fuel', fuel = fuel' + 1 := ⟨fuel - 1, by omega⟩
    have hr : isRetryable e = false := by simp [isRetryable, hc]
    rw [show a + 0 = a from rfl] at he
    rw [retryLoopAux, if_pos (by omega), hallow a, if_pos rfl]
    simp only [he]
    rw [if_pos hr]
  | succ j ih =>
    intro fuel a hle hf htrans hperm
    obtain ⟨e, he, hc⟩ := htrans a (le_refl a) (by omega)
    obtain ⟨fuel', rfl⟩ : ∃ fuel', fuel = fuel' + 1 := ⟨fuel - 1, by omega⟩
    have hr : ¬(isRetryable e = false) := by simp [isRetryable, hc]
    have hna : ¬(m ≤ a) := by omega
    rw [retryLoopAux, if_pos (by omega), hallow a, if_pos rfl]
    simp only [he]
    rw [if_neg hr, if_neg hna]
    rw [ih fuel' (a + 1) (by omega) (by omega)
      (fun k hk1 hk2 => htrans k (by omega) (by omega))
      (by rw [show a + 1 + j = a + (j + 1) from by omega]; exact hperm)]
    show (1 + (j + 1), false) = (j + 1 + 1, false)
    congr 1
    omega

/-- C5: under the default policy (`MaxAttempts = 3`), a closed circuit
breaker and no prior checkpoint (start attempt 0), a node whose every
execution fails with a transiently-classified error is executed exactly
4 times (1 initial + 3 retries) before the loop reports failure; and if
the first permanently-classified failure occurs on attempt `j` (0-based,
earlier attempts failing transiently), the loop stops right after it,
having executed exactly `j + 1` times. -/
theorem c5_retry_exhaustion_and_permanent_stop (outcome : Nat → AttemptOutcome)
    (allow : Nat → Bool) (hallow : ∀ k, allow k = true) :
    ((∀ k, ∃ e, outcome k = .failure e ∧ classifyError e = .transient) →
      retryLoop DefaultPolicy.maxAttempts.toNat outcome allow 0 = (4, false)) ∧
    (∀ j, j ≤ DefaultPolicy.maxAttempts.toNat →
      (∀ k, k < j → ∃ e, outcome k = .failure e ∧ classifyError e = .transient) →
      (∃ e, outcome j = .failure e ∧ classifyError e = .permanent) →
      retryLoop DefaultPolicy.maxAttempts.toNat outcome allow 0 = (j + 1, false)) := by
  constructor
  · intro htrans
    exact retryLoopAux_all_transient DefaultPolicy.maxAttempts.toNat outcome allow hallow htrans
      (DefaultPolicy.maxAttempts.toNat + 1 - 0) 0 (by decide) (by omega)
  · intro j hj htrans hperm
    exact retryLoopAux_permanent_stops DefaultPolicy.maxAttempts.toNat outcome allow hallow j
      (DefaultPolicy.maxAttempts.toNat + 1 - 0) 0 (by omega) (by omega)
      (fun k hk1 hk2 => htrans k (by omega)) (by simpa using hperm)

/-- Concrete instantiation of the C5 theorem: every attempt fails with
gRPC `Unavailable` (classified transient) and the breaker always
allows; the loop executes exactly 4 times and fails. -/
theorem c5_retry_exhaustion_and_permanent_stop_witness :
    retryLoop DefaultPolicy.maxAttempts.toNat
      (fun _ => .failure (some (.grpcError .unavailable))) (fun _ => true) 0 = (4, false) := by
  exact (c5_retry_exhaustion_and_permanent_stop
      (fun _ => .failure (some (.grpcError .unavailable))) (fun _ => true)
      (fun _ => rfl)).1
    (fun k => ⟨some (.grpcError .unavailable), rfl, rfl⟩)

/-! ## Circuit breaker (internal/retry/circuit_breaker.go).
Wall-clock time is modelled as explicit `Nat` ticks handed to the
operations that read the clock (`time.Now`, `time.Since`). -/

/-- Embedding of `CircuitState`. -/
inductive CircuitState
  | closed
  | opened
  | halfOpen
deriving DecidableEq, Repr

/-- Embedding of `CircuitBreaker` (circuit_breaker.go:35-51); the
failure rate is a rational standing for the `float64`. -/
structure CircuitBreaker where
  failureThreshold : ℚ
  minRequests : Int
  openTimeout : Nat
  halfOpenMaxTests : Int
  state : CircuitState
  failures : Int
  successes : Int
  consecutiveSuccesses : Int
  lastFailureTime : Nat
  openedAt : Nat
deriving DecidableEq, Repr

/-- Embedding of `NewCircuitBreaker` (circuit_breaker.go:54-62):
threshold 0.5, window 10, open timeout 30s (nanosecond ticks), 3
half-open probes. -/
def NewCircuitBreaker : CircuitBreaker :=
  { failureThreshold := 1/2
    minRequests := 10
    openTimeout := 30000000000
    halfOpenMaxTests := 3
    state := .closed
    failures := 0
    successes := 0
    consecutiveSuccesses := 0
    lastFailureTime := 0
    openedAt := 0 }

/-- Embedding of `reset` (circuit_breaker.go:169-173). -/
def CircuitBreaker.reset (cb : CircuitBreaker) : CircuitBreaker :=
  { cb with failures := 0, successes := 0, consecutiveSuccesses := 0 }

/-- Embedding of `ShouldAllow` (circuit_breaker.go:76-100); `now` is
the clock read by `time.Since(cb.openedAt)`.  Returns the decision and
the (possibly updated) breaker. -/
def CircuitBreaker.shouldAllow (cb : CircuitBreaker) (now : Nat) : Bool × CircuitBreaker :=
  match cb.state with
  | .closed => (true, cb)
  | .opened =>
    if cb.openTimeout ≤ now - cb.openedAt then
      (true, { cb with state := .halfOpen, consecutiveSuccesses := 0 })
    else
      (false, cb)
  | .halfOpen => (decide (cb.consecutiveSuccesses < cb.halfOpenMaxTests), cb)

/-- Embedding of `RecordSuccess` (circuit_breaker.go:103-124). -/
def CircuitBreaker.recordSuccess (cb : CircuitBreaker) : CircuitBreaker :=
  let cb1 := { cb with successes := cb.successes + 1 }
  match cb1.state with
  | .halfOpen =>
    let cb2 := { cb1 with consecutiveSuccesses := cb1.consecutiveSuccesses + 1 }
    if cb2.halfOpenMaxTests ≤ cb2.consecutiveSuccesses then
      CircuitBreaker.reset { cb2 with state := .closed }
    else cb2
  | .closed =>
    if cb1.minRequests * 2 ≤ cb1.failures + cb1.successes then cb1.reset else cb1
  | .opened => cb1

/-- Embedding of `RecordFailure` (circuit_breaker.go:127-152); `now` is
the clock read by `time.Now()`. -/
def CircuitBreaker.recordFailure (cb : CircuitBreaker) (now : Nat) : CircuitBreaker :=
  let cb1 := { cb with failures := cb.failures + 1, lastFailureTime := now }
  match cb1.state with
  | .halfOpen =>
    { cb1 with state := .opened, openedAt := now, consecutiveSuccesses := 0 }
  | .closed =>
    if cb1.minRequests ≤ cb1.failures + cb1.successes then
      if cb1.failureThreshold ≤ (cb1.failures : ℚ) / ((cb1.failures + cb1.successes : Int) : ℚ) then
        { cb1 with state := .opened, openedAt := now }
      else cb1
    else cb1
  | .opened => cb1

/-- A record event fed to the breaker, tagged with the time at which it
happens. -/
inductive BreakerEvent
  | failureAt (now : Nat)
  | successEvent
deriving DecidableEq, Repr

/-- Feed a sequence of record events to the breaker, in order. -/
def applyEvents (cb : CircuitBreaker) : List BreakerEvent → CircuitBreaker
  | [] => cb
  | .failureAt now :: rest => applyEvents (cb.recordFailure now) rest
  | .successEvent :: rest => applyEvents cb.recordSuccess rest

/-- A run of failure records that stays below the minimum-request
window keeps a closed breaker closed and only counts the failures. -/
theorem cb_replicate_failures_closed (n : Nat) :
    ∀ (cb : CircuitBreaker) (t : Nat), cb.state = .closed →
      cb.failures + cb.successes + n < cb.minRequests →
      (applyEvents cb (List.replicate n (.failureAt t))).state = .closed ∧
      (applyEvents cb (List.replicate n (.failureAt t))).failures = cb.failures + n ∧
      (applyEvents cb (List.replicate n (.failureAt t))).successes = cb.successes ∧
      (applyEvents cb (List.replicate n (.failureAt t))).minRequests = cb.minRequests ∧
      (applyEvents cb (List.replicate n (.failureAt t))).failureThreshold = cb.failureThreshold ∧
      (applyEvents cb (List.replicate n (.failureAt t))).openTimeout = cb.openTimeout ∧
      (applyEvents cb (List.replicate n (.failureAt t))).halfOpenMaxTests = cb.halfOpenMaxTests := by
  induction n with
  | zero =>
    intro cb t hst _
    simp [applyEvents, hst]
  | succ n ih =>
    intro cb t hst hlt
    obtain ⟨th, mr, ot, hm, st, f, s, c, lf, oa⟩ := cb
    simp only [CircuitBreaker.state] at hst
    subst hst
    have hstep : CircuitBreaker.recordFailure
        ⟨th, mr, ot, hm, .closed, f, s, c, lf, oa⟩ t =
        ⟨th, mr, ot, hm, .closed, f + 1, s, c, t, oa⟩ := by
      simp only [CircuitBreaker.recordFailure]
      rw [if_neg (by simp only [CircuitBreaker.minRequests, CircuitBreaker.failures,
        CircuitBreaker.successes] at hlt ⊢; omega)]
    rw [List.replicate_succ]
    simp only [applyEvents]
    rw [hstep]
    have hih := ih ⟨th, mr, ot, hm, .closed, f + 1, s, c, t, oa⟩ t rfl
      (by simp only [CircuitBreaker.minRequests, CircuitBreaker.failures,
        CircuitBreaker.successes] at hlt ⊢; omega)
    refine ⟨hih.1, ?_, hih.2.2.1, hih.2.2.2.1, hih.2.2.2.2.1,
      hih.2.2.2.2.2.1, hih.2.2.2.2.2.2⟩
    rw [hih.2.1]
    simp only [CircuitBreaker.failures]
    push_cast
    ring

/-- A failure recorded on a closed breaker whose window is full and
whose failure rate reaches the threshold opens the breaker, stamping
`openedAt` and retaining (not resetting) the counters. -/
theorem cb_recordFailure_opens (cb : CircuitBreaker) (now : Nat)
    (hst : cb.state = .closed)
    (hwin : cb.minRequests ≤ cb.failures + 1 + cb.successes)
    (hrate : cb.failureThreshold ≤
      ((cb.failures + 1 : Int) : ℚ) / ((cb.failures + 1 + cb.successes : Int) : ℚ)) :
    cb.recordFailure now = { cb with failures := cb.failures + 1, lastFailureTime := now, state := .opened, openedAt := now } := by
  obtain ⟨th, mr, ot, hm, st, f, s, c, lf, oa⟩ := cb
  simp only [CircuitBreaker.state] at hst
  subst hst
  simp only [CircuitBreaker.recordFailure]
  rw [if_pos, if_pos]
  · simpa using hrate
  · simpa using hwin

/-- A failure recorded on a closed breaker whose window is not yet full
leaves the breaker closed. -/
theorem cb_recordFailure_below_window (cb : CircuitBreaker) (now : Nat)
    (hst : cb.state = .closed)
    (hwin : cb.failures + 1 + cb.successes < cb.minRequests) :
    cb.recordFailure now = { cb with failures := cb.failures + 1, lastFailureTime := now } := by
  obtain ⟨th, mr, ot, hm, st, f, s, c, lf, oa⟩ := cb
  simp only [CircuitBreaker.state] at hst
  subst hst
  simp only [CircuitBreaker.recordFailure]
  rw [if_neg]
  simp only [CircuitBreaker.minRequests, CircuitBreaker.failures,
    CircuitBreaker.successes] at hwin ⊢
  omega

/-- The probe-budget-th consecutive success in half-open closes the
breaker and resets all counters. -/
theorem cb_recordSuccess_halfOpen_closes (cb : CircuitBreaker)
    (hst : cb.state = .halfOpen)
    (hcons : cb.halfOpenMaxTests ≤ cb.consecutiveSuccesses + 1) :
    cb.recordSuccess = { cb with state := .closed, successes := 0, failures := 0, consecutiveSuccesses := 0 } := by
  obtain ⟨th, mr, ot, hm, st, f, s, c, lf, oa⟩ := cb
  simp only [CircuitBreaker.state] at hst
  subst hst
  simp only [CircuitBreaker.recordSuccess]
  rw [if_pos]
  · rfl
  · simpa using hcons

/-- C6 amended: with the default configuration (threshold 0.5, window
10), (a) any run of fewer than 10 failure records leaves the breaker
Closed — in particular 9 failures; (b) a failure recorded on a closed
breaker whose window reaches 10 total requests with failure rate at
least 0.5 opens it, stamping `openedAt` — the rate is evaluated only
when a failure is recorded, so "10 total with 5 or more failures" opens
the breaker only when the 10th record is a failure; (c) while open and
before `openTimeout` has elapsed, `ShouldAllow` rejects; (d) once
`openTimeout` has elapsed since opening, the next `ShouldAllow` is
permitted and moves the breaker to HalfOpen. -/
theorem c6_breaker_window_open_halfopen :
    (∀ (t : Nat) (n : Nat), (n : Int) < NewCircuitBreaker.minRequests →
      (applyEvents NewCircuitBreaker (List.replicate n (.failureAt t))).state = .closed) ∧
    (∀ (cb : CircuitBreaker) (now : Nat), cb.state = .closed →
      cb.minRequests ≤ cb.failures + 1 + cb.successes →
      cb.failureThreshold ≤
        ((cb.failures + 1 : Int) : ℚ) / ((cb.failures + 1 + cb.successes : Int) : ℚ) →
      (cb.recordFailure now).state = .opened ∧ (cb.recordFailure now).openedAt = now) ∧
    (∀ (cb : CircuitBreaker) (now : Nat), cb.state = .opened →
      now - cb.openedAt < cb.openTimeout → (cb.shouldAllow now).1 = false) ∧
    (∀ (cb : CircuitBreaker) (now : Nat), cb.state = .opened →
      cb.openTimeout ≤ now - cb.openedAt →
      cb.shouldAllow now = (true, { cb with state := .halfOpen, consecutiveSuccesses := 0 })) := by
  refine ⟨?_, ?_, ?_, ?_⟩
  · intro t n hn
    exact (cb_replicate_failures_closed n NewCircuitBreaker t rfl
      (by simp only [NewCircuitBreaker] at hn ⊢; omega)).1
  · intro cb now hst hwin hrate
    rw [cb_recordFailure_opens cb now hst hwin hrate]
    exact ⟨rfl, rfl⟩
  · intro cb now hst hlt
    obtain ⟨th, mr, ot, hm, st, f, s, c, lf, oa⟩ := cb
    simp only [CircuitBreaker.state] at hst
    subst hst
    simp only [CircuitBreaker.shouldAllow]
    rw [if_neg]
    simp only [CircuitBreaker.openTimeout, CircuitBreaker.openedAt] at hlt ⊢
    omega
  · intro cb now hst hle
    obtain ⟨th, mr, ot, hm, st, f, s, c, lf, oa⟩ := cb
    simp only [CircuitBreaker.state] at hst
    subst hst
    simp only [CircuitBreaker.shouldAllow]
    rw [if_pos]
    simpa using hle

/-- Concrete instantiation of the C6 theorem: 9 failures leave the
default breaker Closed; a 10th failure on a closed default breaker with
9 failures and no successes opens it at the failure's time; the opened
breaker rejects a request 1 second later and admits the probe 30
seconds later, moving to HalfOpen. -/
theorem c6_breaker_window_open_halfopen_witness :
    (applyEvents NewCircuitBreaker
      (List.replicate 9 (.failureAt 0))).state = .closed ∧
    (({ NewCircuitBreaker with failures := 9 } : CircuitBreaker).recordFailure 100).state
      = .opened ∧
    (({ NewCircuitBreaker with state := .opened, openedAt := 100 } :
        CircuitBreaker).shouldAllow 1000000100).1 = false ∧
    (({ NewCircuitBreaker with state := .opened, openedAt := 100 } :
        CircuitBreaker).shouldAllow 30000000100).1 = true := by
  obtain ⟨h1, h2, h3, h4⟩ := c6_breaker_window_open_halfopen
  refine ⟨h1 0 9 (by decide), ?_, ?_, ?_⟩
  · exact (h2 { NewCircuitBreaker with failures := 9 } 100 rfl (by decide)
      (by norm_num [NewCircuitBreaker])).1
  · exact h3 { NewCircuitBreaker with state := .opened, openedAt := 100 } 1000000100
      rfl (by decide)
  · rw [h4 { NewCircuitBreaker with state := .opened, openedAt := 100 } 30000000100
      rfl (by decide)]

/-- The C6 counterexample event sequence: 5 failures followed by 5
successes. -/
def evs5F5S : List BreakerEvent :=
  List.replicate 5 (.failureAt 0) ++ List.replicate 5 .successEvent

/-- C6 counterexample: after 10 total recorded requests of which 5 are
failures — 5 failures then 5 successes — the default breaker is still
Closed, because the opening check runs only in `RecordFailure` and the
10th record is a success; the claim asserts the state would be Open. -/
theorem c6_counterexample :
    (applyEvents NewCircuitBreaker evs5F5S).state = .closed ∧
    (applyEvents NewCircuitBreaker evs5F5S).failures = 5 ∧
    (applyEvents NewCircuitBreaker evs5F5S).successes = 5 := by
  refine ⟨rfl, rfl, rfl⟩

/-- C7 amended: the breaker's counters are reset to zero on the
HalfOpen-to-Closed transition (the probe-budget-th consecutive success),
but on the Closed-to-Open transition `RecordFailure` only records the
opening — the failure and success counters are retained (the failure
count includes the failure that tripped it), not reset to zero as
claimed.  The stale counters are cleared before rate evaluation resumes,
since the only path back to Closed is HalfOpen-to-Closed, which
resets. -/
theorem c7_counters_reset_halfopen_close_only :
    (∀ cb : CircuitBreaker, cb.state = .halfOpen →
      cb.halfOpenMaxTests ≤ cb.consecutiveSuccesses + 1 →
      cb.recordSuccess.state = .closed ∧ cb.recordSuccess.failures = 0 ∧
        cb.recordSuccess.successes = 0 ∧ cb.recordSuccess.consecutiveSuccesses = 0) ∧
    (∀ (cb : CircuitBreaker) (now : Nat), cb.state = .closed →
      cb.minRequests ≤ cb.failures + 1 + cb.successes →
      cb.failureThreshold ≤
        ((cb.failures + 1 : Int) : ℚ) / ((cb.failures + 1 + cb.successes : Int) : ℚ) →
      (cb.recordFailure now).state = .opened ∧
        (cb.recordFailure now).failures = cb.failures + 1 ∧
        (cb.recordFailure now).successes = cb.successes) := by
  constructor
  · intro cb hst hcons
    rw [cb_recordSuccess_halfOpen_closes cb hst hcons]
    exact ⟨rfl, rfl, rfl, rfl⟩
  · intro cb now hst hwin hrate
    rw [cb_recordFailure_opens cb now hst hwin hrate]
    exact ⟨rfl, rfl, rfl⟩

/-- Concrete instantiation of the C7 theorem: a half-open default
breaker with 4 failures, 7 successes and 2 consecutive probe successes
records a third success and closes with all counters zeroed; a closed
default breaker with 9 failures records a 10th failure and opens with
its failure counter at 10. -/
theorem c7_counters_reset_halfopen_close_only_witness :
    (({ NewCircuitBreaker with state := .halfOpen, failures := 4, successes := 7, consecutiveSuccesses := 2 } : CircuitBreaker).recordSuccess.failures = 0 ∧
     ({ NewCircuitBreaker with state := .halfOpen, failures := 4, successes := 7, consecutiveSuccesses := 2 } : CircuitBreaker).recordSuccess.state = .closed) ∧
    (({ NewCircuitBreaker with failures := 9 } : CircuitBreaker).recordFailure 0).failures
      = 10 := by
  obtain ⟨h1, h2⟩ := c7_counters_reset_halfopen_close_only
  constructor
  · have := h1 { NewCircuitBreaker with state := .halfOpen, failures := 4, successes := 7, consecutiveSuccesses := 2 } rfl (by decide)
    exact ⟨this.2.1, this.1⟩
  · have := h2 { NewCircuitBreaker with failures := 9 } 0 rfl (by decide)
      (by norm_num [NewCircuitBreaker])
    rw [this.2.1]
    rfl

/-- C7 counterexample: on the Closed-to-Open transition the counters
are not reset — a closed default breaker with 9 failures records a
10th failure, opens, and its failure counter is 10, not 0 as the claim
requires. -/
theorem c7_counterexample :
    (({ NewCircuitBreaker with failures := 9 } : CircuitBreaker).recordFailure 0).state
        = .opened ∧
      (({ NewCircuitBreaker with failures := 9 } : CircuitBreaker).recordFailure 0).failures
        = 10 := by
  have h := cb_recordFailure_opens { NewCircuitBreaker with failures := 9 } 0 rfl
    (by decide) (by norm_num [NewCircuitBreaker])
  rw [h]
  exact ⟨rfl, rfl⟩

/-! ## Dynamic expansion signal handler (internal/dag/graph.go:157-266) -/

/-- Embedding of `handleEntityDiscovery` (graph.go:168-266), the
in-memory behaviour: the persistence and WAL calls are no-ops for a nil
storage handle and only log warnings otherwise, so they are not
modelled.  A Go map lookup of a missing key yields the zero value `""`,
hence the `getD ""` in the duplicate check. -/
def Graph.handleEntityDiscovery (g : Graph) (sig : Signal) : Except DagError Graph :=
  match assocLookup sig.payload "entity" with
  | none => .error .missingEntity
  | some entity =>
    match assocLookup g.metadata "goal" with
    | none => .error .missingGoal
    | some goal =>
      if ¬(strContains goal entity || strContains entity goal) then
        .error (.notRelevant entity goal)
      else if g.nodes.any (fun n =>
          n.type = "agent" && (assocLookup n.config "entity").getD "" = entity) then
        .ok g
      else
        match g.nodes.find? (fun n => n.id = sig.source) with
        | none => .error (.sourceNotFound sig.source)
        | some sourceNode =>
          if 1 ≤ sourceNode.depth then .error .maxDepthReached
          else
            match (Graph.evaluateReadiness
              { g with
                nodes := g.nodes ++ [{ id := sig.source ++ "-" ++ entity, type := "agent", config := [("entity", entity)], status := .created, relevanceScore := 1, depth := sourceNode.depth + 1, retryCount := 0, lastError := "" }],
                edges := g.edges ++ [{ fromId := sig.source, toId := sig.source ++ "-" ++ entity }] }) with
            | .error e => .error e
            | .ok g2 => .ok (if g2.status = .succeeded then { g2 with status := .running } else g2)

/-- Embedding of `ReceiveSignal` (graph.go:157-165). -/
def Graph.receiveSignal (g : Graph) (sig : Signal) : Except DagError Graph :=
  if sig.type = "ENTITY_DISCOVERY" then g.handleEntityDiscovery sig
  else .ok g

/-- Modelled from the spec: the claim's relevance predicate — the goal
contains the entity or the entity contains the goal, compared
case-insensitively. -/
def caseInsensitiveRelevant (goal entity : String) : Bool :=
  decide (goToLower entity <:+: goToLower goal) || decide (goToLower goal <:+: goToLower entity)

/-- Every error produced by the readiness sweep is a `readinessFailed`
wrapper. -/
theorem evalReadinessAux_error_shape (nodeStatus : String → Option Status) (edges : List Edge) :
    ∀ (fuel i : Nat) (g : Graph) (e : DagError),
      evalReadinessAux nodeStatus edges fuel i g = .error e →
      ∃ nid inner, e = .readinessFailed nid inner := by
  intro fuel
  induction fuel with
  | zero =>
    intro i g e h
    simp [evalReadinessAux] at h
  | succ fuel ih =>
    intro i g e h
    rw [evalReadinessAux] at h
    cases hget : g.nodes.get? i with
    | none => rw [hget] at h; simp at h
    | some n =>
      simp only [hget] at h
      by_cases hcb : n.status = .created ∨ n.status = .blocked
      · rw [if_pos hcb] at h
        by_cases heq : n.status = readinessTarget nodeStatus (parentsOf edges n.id)
        · rw [if_pos heq] at h
          exact ih (i + 1) g e h
        · rw [if_neg heq] at h
          cases hset : g.setNodeStatus n.id (readinessTarget nodeStatus (parentsOf edges n.id)) with
          | error e' =>
            rw [hset] at h
            simp only [Except.error.injEq] at h
            exact ⟨n.id, e', h.symm⟩
          | ok g2 =>
            rw [hset] at h
            exact ih (i + 1) g2 e h
      · rw [if_neg hcb] at h
        exact ih (i + 1) g e h

/-- The graph used for the C8 theorems: goal `Quantum Computing`, one
root node at depth 0. -/
def gC8 : Graph :=
  { id := "g"
    nodes := [{ id := "root", type := "researcher", config := [], status := .succeeded,
                relevanceScore := 1, depth := 0, retryCount := 0, lastError := "" }]
    edges := []
    status := .running
    metadata := [("goal", "Quantum Computing")] }

/-- C8 counterexample: the entity `quantum` is relevant to the goal
`Quantum Computing` under the claim's case-insensitive containment, yet
`handleEntityDiscovery` rejects it with the "not relevant" error — the
code's check (graph.go:179) is case-sensitive `strings.Contains`. -/
theorem c8_counterexample :
    caseInsensitiveRelevant "Quantum Computing" "quantum" = true ∧
      gC8.handleEntityDiscovery
        { type := "ENTITY_DISCOVERY", source := "root", payload := [("entity", "quantum")] } =
        .error (.notRelevant "quantum" "Quantum Computing") := by
  constructor
  · decide
  · rfl

/-- C8 amended: for a signal carrying an entity and a graph carrying a
goal, the entity-discovery handler rejects with the "not relevant"
error exactly when neither string contains the other CASE-SENSITIVELY
(Go `strings.Contains`); when containment holds in either direction the
relevance check passes and the handler never produces that error.  An
error return leaves the graph unmodified (the handler yields no new
graph). -/
theorem c8_relevance_case_sensitive (g : Graph) (sig : Signal) (entity goal : String)
    (he : assocLookup sig.payload "entity" = some entity)
    (hg : assocLookup g.metadata "goal" = some goal) :
    g.handleEntityDiscovery sig = .error (.notRelevant entity goal) ↔
      ¬(strContains goal entity = true ∨ strContains entity goal = true) := by
  unfold Graph.handleEntityDiscovery
  simp only [he, hg]
  by_cases hrel : (strContains goal entity || strContains entity goal) = true
  · rw [if_neg (by simp [hrel])]
    have hor : strContains goal entity = true ∨ strContains entity goal = true := by
      cases hsge : strContains goal entity with
      | true => exact Or.inl rfl
      | false =>
        cases hseg : strContains entity goal with
        | true => exact Or.inr rfl
        | false =>
          rw [hsge, hseg] at hrel
          exact absurd hrel (by decide)
    refine iff_of_false ?_ (not_not_intro hor)
    intro hcontra
    split at hcontra
    · exact absurd hcontra (by simp)
    · split at hcontra
      · exact absurd hcontra (by simp)
      · split at hcontra
        · exact absurd hcontra (by simp)
        · split at hcontra
          next e hev =>
            simp only [Except.error.injEq] at hcontra
            obtain ⟨nid, inner, habs⟩ := evalReadinessAux_error_shape _ _ _ _ _ _ hev
            rw [habs] at hcontra
            exact absurd hcontra.symm (by simp)
          next g2 hev => exact absurd hcontra (by simp)
  · rw [if_pos (by simpa using hrel)]
    exact iff_of_true rfl (by simpa using hrel)

/-- Concrete instantiation of the amended C8 theorem: the entity
`Banana Recipes` shares no case-sensitive containment with the goal
`Quantum Computing` and is rejected with the "not relevant" error. -/
theorem c8_relevance_case_sensitive_witness :
    gC8.handleEntityDiscovery
      { type := "ENTITY_DISCOVERY", source := "root", payload := [("entity", "Banana Recipes")] } =
      .error (.notRelevant "Banana Recipes" "Quantum Computing") := by
  exact (c8_relevance_case_sensitive gC8
    { type := "ENTITY_DISCOVERY", source := "root", payload := [("entity", "Banana Recipes")] }
    "Banana Recipes" "Quantum Computing" rfl rfl).mpr (by decide)

/-! ## Graph validation (internal/dag/graph.go:87-154, 278-342) -/

/-- The individual issues collected by steps 1-3 of `Validate`
(graph.go:96-135); each constructor stands for one aggregated error
string. -/
inductive ValidationIssue
  | emptyNodeID
  | duplicateNodeID (id : String)
  | missingType (id : String)
  | nonAtomicConfig (id key : String)
  | edgeSourceMissing (fromId : String)
  | edgeTargetMissing (toId : String)
  | selfLoop (id : String)
deriving DecidableEq, Repr

/-- The outcomes of `Validate`: empty graph, aggregated structural
issues, cycle, or max-depth violation (each a distinct Go error). -/
inductive ValidateError
  | emptyGraph
  | aggregated (issues : List ValidationIssue)
  | cycleDetected (id : String)
  | maxDepthExceeded (id : String)
deriving DecidableEq, Repr

/-- The reserved composite keys of `Node.Validate` (graph.go:40). -/
def forbiddenKeys : List String :=
  ["steps", "tasks", "pipeline", "subgraph", "batch"]

/-- Embedding of `Node.Validate` (graph.go:39-48): the first reserved
key present in the configuration, if any (the Go loop returns on the
first hit). -/
def nodeAtomicityIssue (n : Node) : Option String :=
  forbiddenKeys.find? fun k => (assocLookup n.config k).isSome

/-- Step 1 of `Validate` (graph.go:97-116): walk the nodes building the
`nodeMap` set while accumulating issues; an empty ID short-circuits the
rest of the loop body (`continue`). -/
def collectNodeIssues : List Node → List ValidationIssue → List String →
    List ValidationIssue × List String
  | [], issues, seen => (issues, seen)
  | n :: rest, issues, seen =>
    if n.id = "" then
      collectNodeIssues rest (issues ++ [.emptyNodeID]) seen
    else
      let issues1 := if n.id ∈ seen then issues ++ [.duplicateNodeID n.id] else issues
      let seen1 := seen ++ [n.id]
      let issues2 := if n.type = "" then issues1 ++ [.missingType n.id] else issues1
      let issues3 := match nodeAtomicityIssue n with
        | some k => issues2 ++ [.nonAtomicConfig n.id k]
        | none => issues2
      collectNodeIssues rest issues3 seen1

/-- Step 2 of `Validate` (graph.go:119-135): edge endpoint and
self-loop issues against the `nodeMap` id set. -/
def collectEdgeIssues (ids : List String) : List Edge → List ValidationIssue →
    List ValidationIssue
  | [], issues => issues
  | e :: rest, issues =>
    let issues1 := if e.fromId ∈ ids then issues else issues ++ [.edgeSourceMissing e.fromId]
    let issues2 := if e.toId ∈ ids then issues1 else issues1 ++ [.edgeTargetMissing e.toId]
    let issues3 := if e.fromId = e.toId then issues2 ++ [.selfLoop e.fromId] else issues2
    collectEdgeIssues ids rest issues3

/-- The adjacency map built by `Validate` (graph.go:131-134): for each
source, the targets of its edges whose endpoints both exist, in edge
order. -/
def Graph.validAdj (g : Graph) : String → List String := fun fromId =>
  let ids := (collectNodeIssues g.nodes [] []).2
  g.edges.filterMap fun e =>
    if e.fromId = fromId ∧ e.fromId ∈ ids ∧ e.toId ∈ ids then some e.toId else none

/-- Embedding of `hasCycle` (graph.go:293-310): DFS with
recursion-stack colouring; `visited` and `stack` are the true-valued
keys of the Go maps.  The neighbor loop with Go's early returns is a
left fold carrying a found-flag that freezes the state once a cycle is
found.  Fuel bounds the recursion depth (each nested call visits a
previously unvisited node, so `#nodes` fuel suffices); on normal exit
the node is removed from the recursion stack. -/
def hasCycleVisit (adj : String → List String) : Nat → String → List String → List String →
    Bool × List String × List String
  | 0, _, visited, stack => (false, visited, stack)
  | fuel + 1, nodeID, visited, stack =>
    match (adj nodeID).foldl (fun acc nb =>
      match acc with
      | (true, v, s) => (true, v, s)
      | (false, v, s) =>
        if nb ∈ v then
          if nb ∈ s then (true, v, s) else (false, v, s)
        else hasCycleVisit adj fuel nb v s)
      (false, nodeID :: visited, nodeID :: stack) with
    | (true, v2, s2) => (true, v2, s2)
    | (false, v2, s2) => (false, v2, s2.erase nodeID)

/-- Embedding of `checkCycles` (graph.go:278-291): run the DFS from
every not-yet-visited node, reporting the first node whose DFS finds a
cycle. -/
def checkCyclesAux (adj : String → List String) (fuel : Nat) :
    List Node → List String → List String → Option String
  | [], _, _ => none
  | n :: rest, visited, stack =>
    if n.id ∈ visited then checkCyclesAux adj fuel rest visited stack
    else
      match hasCycleVisit adj fuel n.id visited stack with
      | (true, _, _) => some n.id
      | (false, v2, s2) => checkCyclesAux adj fuel rest v2 s2

/-- Embedding of `getDepth` inside `checkDepth` (graph.go:317-334):
depth of a node counted in nodes (`1 + max` over children).  Fuel
bounds the recursion (the Go code relies on acyclicity, established by
`checkCycles` beforehand; on an acyclic adjacency the fuel `#nodes` is
never exhausted, and the memoization is a pure optimisation). -/
def getDepth (adj : String → List String) : Nat → String → Nat
  | 0, _ => 1
  | fuel + 1, id => 1 + ((adj id).map (getDepth adj fuel)).foldl max 0

/-- Embedding of `checkDepth` (graph.go:312-342): the first node whose
longest path exceeds the limit, if any. -/
def checkDepth (nodes : List Node) (adj : String → List String) (limit : Nat) : Option String :=
  (nodes.find? fun n => limit < getDepth adj nodes.length n.id).map fun n => n.id

/-- Embedding of `Graph.Validate` (graph.go:89-154): empty check,
aggregated node and edge issues, then cycle detection, then the
`MaxDepth = 3` guard (graph.go:148). -/
def Graph.validate (g : Graph) : Except ValidateError Unit :=
  if g.nodes.isEmpty then .error .emptyGraph
  else
    let collected := collectNodeIssues g.nodes [] []
    let issues := collectEdgeIssues collected.2 g.edges collected.1
    if issues.isEmpty then
      match checkCyclesAux g.validAdj g.nodes.length g.nodes [] [] with
      | some nid => .error (.cycleDetected nid)
      | none =>
        match checkDepth g.nodes g.validAdj 3 with
        | some nid => .error (.maxDepthExceeded nid)
        | none => .ok ()
    else .error (.aggregated issues)

/-- A linear chain of four nodes `a → b → c → d` (longest path of
length 4, counted in nodes). -/
def gChain4 : Graph :=
  { id := "g"
    nodes := [{ id := "a", type := "researcher", config := [], status := .created,
                relevanceScore := 1, depth := 0, retryCount := 0, lastError := "" },
              { id := "b", type := "critic", config := [], status := .created,
                relevanceScore := 1, depth := 0, retryCount := 0, lastError := "" },
              { id := "c", type := "critic", config := [], status := .created,
                relevanceScore := 1, depth := 0, retryCount := 0, lastError := "" },
              { id := "d", type := "synthesizer", config := [], status := .created,
                relevanceScore := 1, depth := 0, retryCount := 0, lastError := "" }]
    edges := [{ fromId := "a", toId := "b" }, { fromId := "b", toId := "c" },
              { fromId := "c", toId := "d" }]
    status := .created
    metadata := [("goal", "g")] }

/-- A linear chain of three nodes `a → b → c` (longest path of length
3, counted in nodes). -/
def gChain3 : Graph :=
  { id := "g"
    nodes := [{ id := "a", type := "researcher", config := [], status := .created,
                relevanceScore := 1, depth := 0, retryCount := 0, lastError := "" },
              { id := "b", type := "critic", config := [], status := .created,
                relevanceScore := 1, depth := 0, retryCount := 0, lastError := "" },
              { id := "c", type := "synthesizer", config := [], status := .created,
                relevanceScore := 1, depth := 0, retryCount := 0, lastError := "" }]
    edges := [{ fromId := "a", toId := "b" }, { fromId := "b", toId := "c" }]
    status := .created
    metadata := [("goal", "g")] }

/-- C9: `Validate` rejects the four-node chain (longest path of length
4) with the max-depth error, accepts the three-node chain (longest path
of length 3), and in general a successful validation implies the
memoized-DFS depth check against the limit 3 found no over-deep
node. -/
theorem c9_depth_guard :
    gChain4.validate = .error (.maxDepthExceeded "a") ∧
    gChain3.validate = .ok () ∧
    (∀ g : Graph, g.validate = .ok () → checkDepth g.nodes g.validAdj 3 = none) := by
  refine ⟨rfl, rfl, ?_⟩
  intro g h
  simp only [Graph.validate] at h
  split at h
  · exact absurd h (by simp)
  · split at h
    · split at h
      · exact absurd h (by simp)
      · split at h
        · exact absurd h (by simp)
        next hdep => exact hdep
    · exact absurd h (by simp)

/-- Concrete instantiation of the C9 theorem's general clause at the
accepted three-node chain: its depth check finds no violation. -/
theorem c9_depth_guard_witness :
    checkDepth gChain3.nodes gChain3.validAdj 3 = none := by
  exact c9_depth_guard.2.2 gChain3 (by rfl)

/-! ## Storage, WAL and recovery (internal/storage/schema.go and the
recovery source).  The SQLite rows are modelled as in-memory lists;
JSON encode/decode of payloads and snapshots, which round-trip, is
modelled as the identity. -/

/-- Embedding of `GraphState` (storage.go:68-73); statuses are strings
at the storage layer. -/
structure GraphState where
  id : String
  status : String
  metadata : List (String × String)
deriving DecidableEq, Repr

/-- Embedding of `NodeState` (storage.go:75-85). -/
structure NodeState where
  nodeID : String
  type : String
  config : List (String × String)
  status : String
  relevanceScore : ℚ
  depth : Int
  retryCount : Int
  lastError : String
deriving DecidableEq, Repr

/-- Embedding of `EdgeState` (storage.go:87-91). -/
structure EdgeState where
  fromId : String
  toId : String
deriving DecidableEq, Repr

/-- The typed payloads of the WAL mutation taxonomy
(schema.go:213-244). -/
inductive WALPayload
  | createGraph (graph : GraphState)
  | updateGraphStatus (oldStatus newStatus : String)
  | addNode (node : NodeState)
  | updateNodeStatus (nodeID oldStatus newStatus : String) (retryCount : Int) (lastError : String)
  | addEdge (fromId toId : String)
  | signalReceived (signalType source : String) (payload : List (String × String))
deriving DecidableEq, Repr

/-- Embedding of `WALEntry` (schema.go:203-211); `MutationType` is a
string in Go, so mismatches between it and the payload are
representable, as are unknown types. -/
structure WALEntry where
  id : Int
  graphID : String
  mutationType : String
  payload : WALPayload
  sequenceNum : Int
  replayed : Bool
deriving DecidableEq, Repr

/-- Embedding of `RecoveredGraphState` (recovery source): the graph row,
the nodes keyed by ID (the Go `map[string]*NodeState` as an association
list with unique keys), and the edge list. -/
structure RecoveredGraphState where
  graph : GraphState
  nodes : List (String × NodeState)
  edges : List EdgeState
deriving DecidableEq, Repr

/-- A row of the `snapshots` table (`graph_id` is its primary key);
the serialized blob is modelled as the decoded state. -/
structure SnapshotRow where
  graphID : String
  sequenceNum : Int
  state : RecoveredGraphState
deriving DecidableEq, Repr

/-- The storage tables the recovery path reads and writes. -/
structure StorageState where
  snapshots : List SnapshotRow
  wal : List WALEntry
deriving DecidableEq, Repr

/-- The errors of `applyWALEntry` and `RecoverGraph`. -/
inductive StorageError
  | invalidPayload (mutationType : String)
  | nodeNotFoundForStatusUpdate (nodeID : String)
  | unknownMutationType (mutationType : String)
  | applyEntryFailed (entryID : Int) (inner : StorageError)
deriving DecidableEq, Repr

/-- Upsert into the Go node map: replace the existing key or append. -/
def nsInsert : List (String × NodeState) → String → NodeState → List (String × NodeState)
  | [], k, v => [(k, v)]
  | (k', v') :: rest, k, v =>
    if k' = k then (k, v) :: rest else (k', v') :: nsInsert rest k v

/-- Lookup in the node map. -/
def nsLookup (m : List (String × NodeState)) (k : String) : Option NodeState :=
  (m.find? fun p => p.1 = k).map fun p => p.2

/-- Embedding of `applyWALEntry` (recovery source): one deterministic
replay function per mutation type, with the payload type assertions of
the Go code (a mismatch is an invalid-payload error) and the
unknown-mutation default. -/
def applyWALEntry (state : RecoveredGraphState) (entry : WALEntry) :
    Except StorageError RecoveredGraphState :=
  if entry.mutationType = "CREATE_GRAPH" then
    match entry.payload with
    | .createGraph p => .ok { state with graph := p }
    | _ => .error (.invalidPayload "CREATE_GRAPH")
  else if entry.mutationType = "UPDATE_GRAPH_STATUS" then
    match entry.payload with
    | .updateGraphStatus _ newStatus =>
      .ok { state with graph := { state.graph with status := newStatus } }
    | _ => .error (.invalidPayload "UPDATE_GRAPH_STATUS")
  else if entry.mutationType = "ADD_NODE" then
    match entry.payload with
    | .addNode node => .ok { state with nodes := nsInsert state.nodes node.nodeID node }
    | _ => .error (.invalidPayload "ADD_NODE")
  else if entry.mutationType = "UPDATE_NODE_STATUS" then
    match entry.payload with
    | .updateNodeStatus nodeID _ newStatus retryCount lastError =>
      match nsLookup state.nodes nodeID with
      | none => .error (.nodeNotFoundForStatusUpdate nodeID)
      | some node =>
        .ok { state with nodes := nsInsert state.nodes nodeID { node with status := newStatus, retryCount := retryCount, lastError := lastError } }
    | _ => .error (.invalidPayload "UPDATE_NODE_STATUS")
  else if entry.mutationType = "ADD_EDGE" then
    match entry.payload with
    | .addEdge f t => .ok { state with edges := state.edges ++ [{ fromId := f, toId := t }] }
    | _ => .error (.invalidPayload "ADD_EDGE")
  else if entry.mutationType = "SIGNAL_RECEIVED" then
    .ok state
  else
    .error (.unknownMutationType entry.mutationType)

/-- The `ORDER BY sequence_num` relation. -/
def walSeqLE (a b : WALEntry) : Prop :=
  a.sequenceNum ≤ b.sequenceNum

instance : DecidableRel walSeqLE := fun a b =>
  inferInstanceAs (Decidable (a.sequenceNum ≤ b.sequenceNum))

instance : IsTotal WALEntry walSeqLE where
  total a b := le_total a.sequenceNum b.sequenceNum

instance : IsTrans WALEntry walSeqLE where
  trans _ _ _ hab hbc := le_trans hab hbc

/-- Embedding of `GetUnreplayedWAL` (schema.go:271-302): the entries of
the graph with `replayed = 0`, ordered by `sequence_num` (per-graph
sequence numbers are unique in practice, so any correct sort gives the
SQL result; insertion sort computes it). -/
def getUnreplayedWAL (st : StorageState) (graphID : String) : List WALEntry :=
  List.insertionSort walSeqLE
    (st.wal.filter fun e => e.graphID = graphID && e.replayed = false)

/-- Embedding of `MarkWALReplayed` (schema.go:304-312): set
`replayed = 1` on the graph's entries with `sequence_num <= upTo`. -/
def markWALReplayed (st : StorageState) (graphID : String) (upTo : Int) : StorageState :=
  { st with wal := st.wal.map fun e =>
      if e.graphID = graphID ∧ e.sequenceNum ≤ upTo then { e with replayed := true } else e }

/-- Embedding of `LoadSnapshot` (schema.go:351-365): the graph's
snapshot row, if any. -/
def loadSnapshot (st : StorageState) (graphID : String) : Option SnapshotRow :=
  st.snapshots.find? fun r => r.graphID = graphID

/-- The initial recovery state (recovery source): the decoded snapshot,
or the empty state when no snapshot exists. -/
def initialState (st : StorageState) (graphID : String) : RecoveredGraphState :=
  match loadSnapshot st graphID with
  | some row => row.state
  | none => { graph := { id := graphID, status := "", metadata := [] }, nodes := [], edges := [] }

/-- The snapshot sequence number, or 0 when no snapshot exists. -/
def snapSeqOf (st : StorageState) (graphID : String) : Int :=
  match loadSnapshot st graphID with
  | some row => row.sequenceNum
  | none => 0

/-- The replay loop of `RecoverGraph`: apply each entry in order,
wrapping an application error with the entry ID, and track the last
applied sequence number. -/
def replayAll : RecoveredGraphState → Int → List WALEntry →
    Except StorageError (RecoveredGraphState × Int)
  | state, lastSeq, [] => .ok (state, lastSeq)
  | state, _, e :: rest =>
    match applyWALEntry state e with
    | .error err => .error (.applyEntryFailed e.id err)
    | .ok s2 => replayAll s2 e.sequenceNum rest

/-- Embedding of `RecoverGraph` (recovery source): load the snapshot
(or start empty), replay ALL entries returned by `GetUnreplayedWAL` —
the `replayed = 0` entries, regardless of their position relative to
the snapshot's sequence number — and mark entries up to the last
applied sequence number as replayed.  With no entries to replay the
store is untouched. -/
def recoverGraph (st : StorageState) (graphID : String) :
    Except StorageError (RecoveredGraphState × StorageState) :=
  if (getUnreplayedWAL st graphID).isEmpty then
    .ok (initialState st graphID, st)
  else
    match replayAll (initialState st graphID) (snapSeqOf st graphID)
        (getUnreplayedWAL st graphID) with
    | .error e => .error e
    | .ok (state, lastSeq) => .ok (state, markWALReplayed st graphID lastSeq)

/-- Modelled from the spec: recovery as the claim words it — "replays
exactly the WAL entries whose sequence_num is greater than the
snapshot's sequence_num, in increasing sequence order" — for comparison
with `recoverGraph` above. -/
def recoverGraphSpec (st : StorageState) (graphID : String) :
    Except StorageError (RecoveredGraphState × StorageState) :=
  if (List.insertionSort walSeqLE (st.wal.filter fun e =>
      e.graphID = graphID && snapSeqOf st graphID < e.sequenceNum)).isEmpty then
    .ok (initialState st graphID, st)
  else
    match replayAll (initialState st graphID) (snapSeqOf st graphID)
        (List.insertionSort walSeqLE (st.wal.filter fun e =>
          e.graphID = graphID && snapSeqOf st graphID < e.sequenceNum)) with
    | .error e => .error e
    | .ok (state, lastSeq) => .ok (state, markWALReplayed st graphID lastSeq)

/-- The snapshot state of the C1 counterexample store: graph `g`
running, no nodes, no edges. -/
def cexSnapshotState : RecoveredGraphState :=
  { graph := { id := "g", status := "RUNNING", metadata := [] }
    nodes := []
    edges := [] }

/-- The C1 counterexample store: a snapshot for graph `g` at sequence 5
with no edges, and a single unreplayed `ADD_EDGE` entry at sequence 3,
below the snapshot's sequence number. -/
def cexStore : StorageState :=
  { snapshots := [{ graphID := "g", sequenceNum := 5, state := cexSnapshotState }]
    wal := [{ id := 1, graphID := "g", mutationType := "ADD_EDGE", payload := .addEdge "a" "b", sequenceNum := 3, replayed := false }] }

/-- What `RecoverGraph` actually produces on the counterexample store:
the snapshot state with the sequence-3 edge applied on top. -/
def cexRecovered : RecoveredGraphState :=
  { graph := { id := "g", status := "RUNNING", metadata := [] }
    nodes := []
    edges := [{ fromId := "a", toId := "b" }] }

/-- The counterexample store after recovery: the sequence-3 entry is
marked replayed. -/
def cexStoreMarked : StorageState :=
  { snapshots := [{ graphID := "g", sequenceNum := 5, state := cexSnapshotState }]
    wal := [{ id := 1, graphID := "g", mutationType := "ADD_EDGE", payload := .addEdge "a" "b", sequenceNum := 3, replayed := true }] }

/-- C1 counterexample: `RecoverGraph` replays the unreplayed entry at
sequence 3 even though the snapshot is at sequence 5 — the recovered
state contains the edge the snapshot already incorporates — while the
claim's "only entries with sequence_num greater than the snapshot's"
recovery replays nothing and leaves the store untouched.  The code
selects by the `replayed` flag (`GetUnreplayedWAL`), not by comparison
with the snapshot sequence. -/
theorem c1_counterexample :
    recoverGraph cexStore "g" = .ok (cexRecovered, cexStoreMarked) ∧
    recoverGraphSpec cexStore "g" = .ok (cexSnapshotState, cexStore) ∧
    cexRecovered.edges = [{ fromId := "a", toId := "b" }] ∧
    cexSnapshotState.edges = [] := by
  exact ⟨rfl, rfl, rfl, rfl⟩

/-- The last sequence number returned by the replay loop is the last
replayed entry's sequence number (or the initial value when nothing is
replayed). -/
theorem replayAll_lastSeq :
    ∀ (entries : List WALEntry) (s0 : RecoveredGraphState) (l0 : Int)
      (s' : RecoveredGraphState) (l' : Int),
      replayAll s0 l0 entries = .ok (s', l') →
      (entries = [] ∧ l' = l0 ∧ s' = s0) ∨
        (∃ last, entries.getLast? = some last ∧ l' = last.sequenceNum) := by
  intro entries
  induction entries with
  | nil =>
    intro s0 l0 s' l' h
    simp only [replayAll, Except.ok.injEq, Prod.mk.injEq] at h
    exact Or.inl ⟨rfl, h.2.symm, h.1.symm⟩
  | cons e rest ih =>
    intro s0 l0 s' l' h
    rw [replayAll] at h
    cases happ : applyWALEntry s0 e with
    | error err => rw [happ] at h; simp at h
    | ok s2 =>
      rw [happ] at h
      rcases ih s2 e.sequenceNum s' l' h with ⟨hnil, hl, _⟩ | ⟨last, hlast, hl⟩
      · subst hnil
        exact Or.inr ⟨e, rfl, hl⟩
      · refine Or.inr ⟨last, ?_, hl⟩
        cases rest with
        | nil => simp at hlast
        | cons r rs => rw [List.getLast?_cons_cons]; exact hlast

/-- C1 amended: a successful `RecoverGraph` starts from the latest
snapshot (or the empty state when none exists), replays exactly the
entries `GetUnreplayedWAL` returns — the graph's entries not yet marked
replayed, in nondecreasing sequence order, each through its mutation
type's replay function — and afterwards marks the graph's entries up to
the last applied sequence number as replayed; when there is nothing to
replay the store is unchanged.  The replayed set is NOT "the entries
with sequence_num greater than the snapshot's": an unreplayed entry at
or below the snapshot sequence is replayed too. -/
theorem c1_recover_replays_unreplayed (st : StorageState) (gid : String)
    (s : RecoveredGraphState) (st' : StorageState)
    (h : recoverGraph st gid = .ok (s, st')) :
    (getUnreplayedWAL st gid).Pairwise walSeqLE ∧
    (∀ e ∈ getUnreplayedWAL st gid, e.graphID = gid ∧ e.replayed = false) ∧
    (∀ e ∈ st.wal, e.graphID = gid → e.replayed = false → e ∈ getUnreplayedWAL st gid) ∧
    (getUnreplayedWAL st gid = [] → s = initialState st gid ∧ st' = st) ∧
    (getUnreplayedWAL st gid ≠ [] →
      ∃ lastSeq, replayAll (initialState st gid) (snapSeqOf st gid)
          (getUnreplayedWAL st gid) = .ok (s, lastSeq) ∧
        (∃ last, (getUnreplayedWAL st gid).getLast? = some last ∧
          lastSeq = last.sequenceNum) ∧
        st' = markWALReplayed st gid lastSeq) := by
  refine ⟨List.sorted_insertionSort walSeqLE _, ?_, ?_, ?_, ?_⟩
  · intro e he
    have := List.mem_filter.mp ((List.mem_insertionSort walSeqLE).mp he)
    have hb := this.2
    simp only [Bool.and_eq_true, decide_eq_true_eq] at hb
    exact hb
  · intro e hmem hgid hrep
    apply (List.mem_insertionSort walSeqLE).mpr
    apply List.mem_filter.mpr
    exact ⟨hmem, by simp [hgid, hrep]⟩
  · intro hempty
    unfold recoverGraph at h
    rw [if_pos (by simp [hempty])] at h
    simp only [Except.ok.injEq, Prod.mk.injEq] at h
    exact ⟨h.1.symm, h.2.symm⟩
  · intro hne
    unfold recoverGraph at h
    rw [if_neg (by simpa using hne)] at h
    cases hrep : replayAll (initialState st gid) (snapSeqOf st gid)
        (getUnreplayedWAL st gid) with
    | error e =>
      rw [hrep] at h
      simp at h
    | ok p =>
      rw [hrep] at h
      simp only [Except.ok.injEq, Prod.mk.injEq] at h
      refine ⟨p.2, ?_, ?_, h.2.symm⟩
      · rw [← h.1]
      · rcases replayAll_lastSeq (getUnreplayedWAL st gid) (initialState st gid)
          (snapSeqOf st gid) p.1 p.2 hrep with ⟨hnil, _, _⟩ | ⟨last, hlast, hl⟩
        · exact absurd hnil hne
        · exact ⟨last, hlast, hl⟩

/-- Concrete instantiation of the amended C1 theorem at the
counterexample store: the replayed batch is the single unreplayed entry
of graph `g`, and afterwards that entry is marked replayed. -/
theorem c1_recover_replays_unreplayed_witness :
    ∃ lastSeq, replayAll (initialState cexStore "g") (snapSeqOf cexStore "g")
        (getUnreplayedWAL cexStore "g") = .ok (cexRecovered, lastSeq) := by
  have hok : recoverGraph cexStore "g" = .ok (cexRecovered, cexStoreMarked) := rfl
  obtain ⟨-, -, -, -, hne⟩ :=
    c1_recover_replays_unreplayed cexStore "g" cexRecovered cexStoreMarked hok
  obtain ⟨lastSeq, hreplay, -, -⟩ := hne (by decide)
  exact ⟨lastSeq, hreplay⟩

end DeepDAG
